import Mathlib

/-!
Shallow embedding of the synthetic e-commerce data generator
(`backend/src/utils/data_generator.py`).

Modelling conventions:

* Python floats are modelled as exact rationals (`ℚ`); `round(x, 2)` is
  modelled by `round2`.  Python rounds half to even while Mathlib's `round`
  rounds half up; the two agree except at exact ties, which none of the
  concrete inputs below hit, and every bound used only needs
  `|round x - x| ≤ 1/2`, which both satisfy.
* The pseudo-random sources (`np.random`, `random`, `faker`) are seeded once
  at module import and then consumed sequentially.  They are modelled by a
  single oracle: a stream `ℕ → ℚ` of sampled values together with a cursor.
  Each sampling primitive consumes the value at the cursor; the primitive's
  distribution parameters are recorded in the primitive's name/arguments.
  A draw from `Uniform(a,b)` is the inverse-CDF image `a + (b-a)·u` of the
  raw stream value `u`; draws from normal / exponential / log-normal /
  Poisson distributions are supplied directly by the oracle.
* A Python exception is modelled by `Option`: `none` means the call raises.
  The per-stage summary `print`s index a column of the freshly built frame,
  which raises `KeyError` when the frame is empty (an empty
  `pd.DataFrame([])` has no columns), so each stage fails on an empty
  result list.
* Calendar arithmetic (`end_date - timedelta(days=d)` and taking the
  month of the resulting date) is delegated to an external library in the
  source; it is modelled by the configuration field `month_of`, which maps
  the integer day offset `d` to the 0-based month index of that date.
-/

namespace DataGen

/-- Model of Python `round(x, 2)`: round to two decimal places. -/
def round2 (q : ℚ) : ℚ := (round (q * 100) : ℚ) / 100

/-- Model of Python `int(x)`: truncation toward zero. -/
def pyInt (q : ℚ) : ℤ := if 0 ≤ q then ⌊q⌋ else -⌊-q⌋

/-- The random oracle: a stream of sampled values and a cursor. -/
structure Rand where
  stream : ℕ → ℚ
  pos : ℕ

/-- A generation step: consumes random values, may raise (`none`). -/
def Gen (α : Type) : Type := Rand → Option (α × Rand)

def Gen.pure {α : Type} (a : α) : Gen α := fun r => some (a, r)

def Gen.bind {α β : Type} (g : Gen α) (f : α → Gen β) : Gen β :=
  fun r => (g r).bind (fun p => f p.1 p.2)

instance : Monad Gen where
  pure := Gen.pure
  bind := Gen.bind

/-- A raising call (Python exception). -/
def Gen.fail {α : Type} : Gen α := fun _ => none

/-- Consume the next oracle value. -/
def nextQ : Gen ℚ := fun r => some (r.stream r.pos, ⟨r.stream, r.pos + 1⟩)

/-- Models `np.random.random()`: a raw uniform value in `[0,1)`. -/
def randFloat : Gen ℚ := nextQ

/-- Models `np.random.exponential(mean)`: the oracle supplies the sampled value. -/
def expDraw (_mean : ℚ) : Gen ℚ := nextQ

/-- Models `np.random.normal(mu, sigma)`: the oracle supplies the sampled value. -/
def normalDraw (_mu _sigma : ℚ) : Gen ℚ := nextQ

/-- Models `np.random.lognormal(mu, sigma)`: the oracle supplies the sampled value. -/
def lognormalDraw (_mu _sigma : ℚ) : Gen ℚ := nextQ

/-- Models `np.random.poisson(lam)`: the oracle supplies the sampled value. -/
def poissonDraw (_lam : ℚ) : Gen ℕ := do
  let v ← nextQ
  pure (⌊v⌋).toNat

/-- A call into the `faker` library: an opaque draw whose value is unused. -/
def fakerDraw : Gen ℚ := nextQ

/-- Models `np.random.uniform(a, b)` via the inverse CDF of the raw uniform value. -/
def uniformDraw (a b : ℚ) : Gen ℚ := do
  let u ← randFloat
  pure (a + (b - a) * u)

/-- Index selected by a cumulative-weight scan: the categorical sampler
underlying `np.random.choice(xs, p=ws)` and weighted `DataFrame.sample`. -/
def cumIdx : List ℚ → ℚ → ℕ
  | [], _ => 0
  | w :: ws, t => if t < w then 0 else cumIdx ws (t - w) + 1

/-- Weighted index choice (normalised, clamped into range). -/
def weightedIndex (ws : List ℚ) (u : ℚ) : ℕ :=
  min (cumIdx ws (u * ws.sum)) (ws.length - 1)

/-- Models `np.random.choice` over positions `0..ps.length-1` with probabilities `ps`. -/
def choiceIdx (ps : List ℚ) : Gen ℕ := do
  let u ← randFloat
  pure (weightedIndex ps u)

/-- Uniform index in `0..n-1` (unweighted `choice` / `DataFrame.sample`). -/
def pickIdx (u : ℚ) (n : ℕ) : ℕ := min (⌊u * n⌋).toNat (n - 1)

/-- Models `np.random.choice([True, False], p=[pTrue, 1-pTrue])`. -/
def boolChoice (pTrue : ℚ) : Gen Bool := do
  let u ← randFloat
  pure (decide (u < pTrue))

/-- Unweighted `np.random.choice` over `n` positions. -/
def uniformChoiceIdx (n : ℕ) : Gen ℕ := do
  let u ← randFloat
  pure (pickIdx u n)

/-- Run `body` on the indices `start, start+1, …, start+n-1`, in order. -/
def genFor {α : Type} (body : ℕ → Gen α) : ℕ → ℕ → Gen (List α)
  | _, 0 => Pure.pure []
  | start, n + 1 => do
    let a ← body start
    let as ← genFor body (start + 1) n
    pure (a :: as)

/-! ## Data model

Only fields carrying sampled data are kept; text fields produced by the
`faker` library (names, addresses, brands, …) are opaque strings never read
by any later computation, so they appear only as consumed opaque draws.
Categorical fields are stored as the index into the fixed value list of the
source (e.g. `customer_segment = 1` is `Standard`). Dates are stored as the
integer day offset from `end_date` that produced them. -/

/-- Constructor parameters of `EcommerceDataGenerator` (lines 26-39).
`range_days` is `(end_date - start_date).days`; `month_of` models the
calendar: the 0-based month index of `end_date - timedelta(days=d)`. -/
structure EcommerceDataGenerator where
  num_customers : ℕ
  num_products : ℕ
  num_orders : ℕ
  range_days : ℕ
  month_of : ℤ → ℕ

/-- A row of the customers table (lines 83-98). -/
structure Customer where
  customer_id : ℕ
  customer_segment : ℕ
  acquisition_channel : ℕ
  registration_days_back : ℤ
  is_active : Bool
deriving DecidableEq, Repr

/-- A row of the products table (lines 133-145). -/
structure Product where
  product_id : ℕ
  category : ℕ
  price : ℚ
  cost : ℚ
  weight_kg : ℚ
  is_active : Bool
deriving DecidableEq, Repr

/-- A row of the orders table (lines 223-233, updated at 278-284). -/
structure Order where
  order_id : ℕ
  customer_id : ℕ
  order_days_back : ℤ
  status : ℕ
  payment_method : ℕ
  shipping_cost : ℚ
  discount_amount : ℚ
  tax_amount : ℚ
  total_amount : ℚ
deriving DecidableEq, Repr

/-- A row of the order_items table (lines 255-261). -/
structure OrderItem where
  order_id : ℕ
  product_id : ℕ
  quantity : ℕ
  unit_price : ℚ
  total_price : ℚ
deriving DecidableEq, Repr

/-- A row of the web_sessions table (lines 341-352). -/
structure Session where
  session_id : ℕ
  customer_id : Option ℕ
  session_days_back : ℤ
  traffic_source : ℕ
  device_type : ℕ
  session_duration_seconds : ℤ
  page_views : ℕ
  bounced : ℕ
  converted : Bool
  revenue : ℚ
deriving DecidableEq, Repr

/-- The five generated tables, as returned by `generate_all_data`. -/
structure AllData where
  customers : List Customer
  products : List Product
  orders : List Order
  order_items : List OrderItem
  web_sessions : List Session
deriving DecidableEq, Repr

def dfltCustomer : Customer := ⟨0, 0, 0, 0, false⟩
def dfltProduct : Product := ⟨0, 0, 0, 0, 0, false⟩

/-! ## Customer generation (lines 63-103) -/

/-- Segment probabilities `[0.3, 0.4, 0.25, 0.05]` over
`[Budget, Standard, Premium, Enterprise]` (line 73). -/
def segmentP : List ℚ := [3/10, 2/5, 1/4, 1/20]

/-- Channel probabilities (line 76). -/
def channelP : List ℚ := [1/4, 1/5, 3/20, 3/20, 1/10, 2/25, 7/100]

/-- Models `segment_behavior[segment]["order_frequency"]` (lines 162-183),
indexed in the order `[Budget, Standard, Premium, Enterprise]`. -/
def segFrequency (i : ℕ) : ℚ := [3/10, 1/2, 7/10, 9/10].getD i 0

/-- Models `segment_behavior[segment]["items_per_order"]` (lines 162-183). -/
def segItemsPerOrder (i : ℕ) : ℕ := [2, 3, 5, 10].getD i 0

/-- One iteration of the customer loop (lines 68-99). -/
def genCustomer (cfg : EcommerceDataGenerator) (i : ℕ) : Gen Customer := do
  let _profile ← fakerDraw                    -- fake.profile()          (line 70)
  let seg ← choiceIdx segmentP                -- segment choice          (line 73)
  let ch ← choiceIdx channelP                 -- channel choice          (line 76)
  let db ← expDraw 200                        -- days_back               (line 79)
  let _city ← fakerDraw                       -- fake.city()             (line 91)
  let _country ← fakerDraw                    -- fake.country()          (line 92)
  let _postal ← fakerDraw                     -- fake.postcode()         (line 93)
  let act ← boolChoice (17/20)                -- is_active               (line 97)
  pure { customer_id := i + 1, customer_segment := seg, acquisition_channel := ch,
         registration_days_back := pyInt (min db (cfg.range_days : ℚ)),
         is_active := act }

/-- Models `generate_customers` (lines 63-103); raises on an empty result
(the summary print reads a column absent from an empty frame). -/
def generate_customers (cfg : EcommerceDataGenerator) : Gen (List Customer) := do
  let cs ← genFor (genCustomer cfg) 0 cfg.num_customers
  if cs.isEmpty then Gen.fail else pure cs

/-! ## Product generation (lines 105-150) -/

/-- Models `category_price_multipliers` (lines 114-123), indexed by position in
`product_categories` (lines 52-61): Electronics 3.0, Clothing 1.0,
Home & Garden 1.8, Books 0.4, Sports 1.5, Health & Beauty 1.2, Toys 0.8,
Automotive 2.5; `.get(category, 1.0)` default 1. -/
def categoryMult (i : ℕ) : ℚ := [3, 1, 9/5, 2/5, 3/2, 6/5, 4/5, 5/2].getD i 1

/-- Models `price = base_price * multiplier[category]` (line 126), before rounding. -/
def rawPrice (cat : ℕ) (base : ℚ) : ℚ := base * categoryMult cat

/-- Margin clipping `max(0.1, min(0.8, m))` (line 130). -/
def clampMargin (m : ℚ) : ℚ := max (1/10) (min (4/5) m)

/-- Models `cost = price * (1 - margin_rate)` (line 131), before rounding. -/
def rawCost (cat : ℕ) (base m : ℚ) : ℚ := rawPrice cat base * (1 - clampMargin m)

/-- One iteration of the product loop (lines 110-146). -/
def genProduct (_cfg : EcommerceDataGenerator) (i : ℕ) : Gen Product := do
  let cat ← uniformChoiceIdx 8                -- category                (line 111)
  let base ← lognormalDraw 3 1                -- base_price              (line 125)
  let m ← normalDraw (2/5) (1/10)             -- margin_rate             (line 129)
  let _w1 ← fakerDraw                         -- fake.word()             (line 135)
  let _w2 ← fakerDraw                         -- fake.word()             (line 135)
  let _w3 ← fakerDraw                         -- subcategory word        (line 137)
  let _brand ← fakerDraw                      -- fake.company()          (line 138)
  let w ← lognormalDraw 0 1                   -- weight_kg               (line 141)
  let _d1 ← fakerDraw                         -- fake.random_int         (line 142)
  let _d2 ← fakerDraw
  let _d3 ← fakerDraw
  let _launch ← fakerDraw                     -- fake.date_between       (line 143)
  let act ← boolChoice (9/10)                 -- is_active               (line 144)
  pure { product_id := i + 1, category := cat,
         price := round2 (rawPrice cat base), cost := round2 (rawCost cat base m),
         weight_kg := round2 w, is_active := act }

/-- Models `generate_products` (lines 105-150); raises on an empty result. -/
def generate_products (cfg : EcommerceDataGenerator) : Gen (List Product) := do
  let ps ← genFor (genProduct cfg) 0 cfg.num_products
  if ps.isEmpty then Gen.fail else pure ps

/-! ## Order and order-item generation (lines 152-295) -/

/-- Monthly seasonality weights (line 196), 0-based month index. -/
def monthWeight (m : ℕ) : ℚ :=
  [7/10, 7/10, 9/10, 9/10, 1, 1, 4/5, 4/5, 11/10, 11/10, 7/5, 3/2].getD m 0

/-- Status probabilities (lines 209-212). -/
def statusP : List ℚ := [17/20, 1/20, 1/20, 1/20]

/-- Payment-method probabilities (lines 218-221). -/
def paymentP : List ℚ := [3/5, 1/4, 1/10, 1/20]

/-- Shipping cost (lines 215-216): `normal(10,3) if random() > 0.1 else 0`,
then clipped at 0. -/
def shippingDraw : Gen ℚ := do
  let u ← randFloat
  if u ≤ 1/10 then pure 0
  else do
    let s ← normalDraw 10 3
    pure (max 0 s)

/-- Models `products_df.sample(k)`: `k` distinct products, uniformly without
replacement (line 243). Never called with `k > pool.length`. -/
def sampleProducts : List Product → ℕ → Gen (List Product)
  | _, 0 => Pure.pure []
  | pool, k + 1 => do
    let u ← randFloat
    let i := pickIdx u pool.length
    let rest ← sampleProducts (pool.eraseIdx i) k
    pure (pool.getD i dfltProduct :: rest)

/-- One iteration of the item loop (lines 245-262): returns the emitted row
and the unrounded `item_total` added to the running `order_total`. -/
def genItem (oid : ℕ) (p : Product) : Gen (OrderItem × ℚ) := do
  let pv ← poissonDraw 2                      -- quantity                (line 246)
  let v ← normalDraw 1 (1/10)                 -- price_variation         (line 249)
  let q := max 1 pv
  let up := p.price * max (1/2) v             -- unit_price              (line 250)
  let t := (q : ℚ) * up                       -- item_total              (line 252)
  pure ({ order_id := oid, product_id := p.product_id, quantity := q,
          unit_price := round2 up, total_price := round2 t }, t)

/-- The item loop over the sampled products (lines 242-262): the emitted
rows and the accumulated unrounded `order_total`. -/
def genItems (oid : ℕ) : List Product → Gen (List OrderItem × ℚ)
  | [] => Pure.pure ([], 0)
  | p :: ps => do
    let (it, t) ← genItem oid p
    let (its, s) ← genItems oid ps
    pure (it :: its, t + s)

/-- Discount rate (lines 265-269). -/
def discountRate (orderTotal : ℚ) : Gen ℚ :=
  if 200 < orderTotal then uniformDraw (1/20) (3/20)
  else do
    let u ← randFloat
    if u < 1/10 then uniformDraw (1/10) (1/4) else pure 0

/-- Everything a candidate order has determined before the totals are
computed (lines 185-262): `order_total` is the unrounded running sum. -/
structure PreOrder where
  customer_id : ℕ
  order_days_back : ℤ
  status : ℕ
  payment_method : ℕ
  ship_raw : ℚ
  items : List OrderItem
  order_total : ℚ
deriving DecidableEq, Repr

/-- The candidate-order loop body up to and including item generation
(lines 185-262). `none` inside the `some` is the seasonality `continue`
(line 206); an overall `none` is the `ValueError` that
`customers_df.sample` raises on an empty customers frame. -/
def candSetup (cfg : EcommerceDataGenerator) (customers : List Customer)
    (products : List Product) (oid : ℕ) : Gen (Option PreOrder) := do
  if customers.isEmpty then Gen.fail else
  let uc ← randFloat                          -- weighted customer sample (line 190)
  let cust := customers.getD
    (weightedIndex (customers.map (fun c => segFrequency c.customer_segment)) uc)
    dfltCustomer
  let db ← expDraw 30                         -- days_back               (line 199)
  let d := pyInt (min db (cfg.range_days : ℚ))
  let us ← randFloat                          -- seasonality draw        (line 205)
  if monthWeight (cfg.month_of d) / (3/2) < us then pure none else do
  let st ← choiceIdx statusP                  -- status                  (line 209)
  let ship ← shippingDraw                     -- shipping                (lines 215-216)
  let pay ← choiceIdx paymentP                -- payment                 (line 218)
  let pv ← poissonDraw (segItemsPerOrder cust.customer_segment)  -- (line 240)
  let numItems := max 1 pv
  let sel ← sampleProducts products (min numItems products.length)  -- (line 243)
  let (its, s) ← genItems oid sel             -- item loop               (lines 245-262)
  pure (some { customer_id := cust.customer_id, order_days_back := d,
               status := st, payment_method := pay, ship_raw := ship,
               items := its, order_total := s })

/-- Totals computation and emission (lines 264-286). -/
def candFinish (oid : ℕ) (pre : PreOrder) : Gen (Order × List OrderItem) := do
  let rate ← discountRate pre.order_total     -- discount_rate           (lines 265-269)
  let disc := pre.order_total * rate          -- discount_amount         (line 271)
  let sub := pre.order_total - disc           -- subtotal                (line 272)
  let tax := sub * (2/25)                     -- tax_amount, 8%          (lines 273-274)
  let tot := sub + tax + pre.ship_raw         -- total_amount            (line 275)
  pure ({ order_id := oid, customer_id := pre.customer_id,
          order_days_back := pre.order_days_back, status := pre.status,
          payment_method := pre.payment_method,
          shipping_cost := round2 pre.ship_raw,
          discount_amount := round2 disc, tax_amount := round2 tax,
          total_amount := round2 tot }, pre.items)

/-- One full candidate of the order loop (lines 185-286). -/
def genOrderCandidate (cfg : EcommerceDataGenerator) (customers : List Customer)
    (products : List Product) (oid : ℕ) : Gen (Option (Order × List OrderItem)) := do
  let p ← candSetup cfg customers products oid
  match p with
  | none => pure none
  | some pre => do
    let x ← candFinish oid pre
    pure (some x)

/-- Models `generate_orders` (lines 152-295): candidates `1..num_orders`; skipped
candidates emit nothing; raises on an empty orders result (the summary
print reads the `status` column of an empty frame). -/
def generate_orders (cfg : EcommerceDataGenerator) (customers : List Customer)
    (products : List Product) : Gen (List Order × List OrderItem) := do
  let results ← genFor (genOrderCandidate cfg customers products) 1 cfg.num_orders
  let emitted := results.filterMap id
  let orders := emitted.map Prod.fst
  let items := (emitted.map Prod.snd).flatten
  if orders.isEmpty then Gen.fail else pure (orders, items)

/-! ## Web-session generation (lines 297-360) -/

/-- Traffic-source probabilities (lines 318-328). -/
def trafficP : List ℚ := [7/20, 1/4, 3/20, 1/10, 1/10, 1/20]

/-- Device-type probabilities (line 331). -/
def deviceP : List ℚ := [2/5, 1/2, 1/10]

/-- Models `customers_df.sample(1)["customer_id"].iloc[0]` (line 309): uniform
sample of an existing customer id; raises on an empty customers frame. -/
def sessionCustomer (customers : List Customer) : Gen (Option ℕ) := do
  if customers.isEmpty then Gen.fail else
  let v ← randFloat
  pure (some ((customers.getD (pickIdx v customers.length) dfltCustomer).customer_id))

/-- Lines 308-311: with 60% probability an existing customer id, else an
anonymous session. -/
def sessionMaybeCustomer (customers : List Customer) (u : ℚ) : Gen (Option ℕ) :=
  if u < 3/5 then sessionCustomer customers else Pure.pure none

/-- One iteration of the session loop (lines 306-353). -/
def genSession (customers : List Customer) (orders : List Order)
    (sid : ℕ) : Gen Session := do
  let u ← randFloat                           -- 60% existing customer   (line 308)
  let cid ← sessionMaybeCustomer customers u
  let db ← expDraw 20                         -- days_back               (line 314)
  let tr ← choiceIdx trafficP                 -- traffic_source          (line 318)
  let dev ← choiceIdx deviceP                 -- device_type             (line 331)
  let dur ← expDraw 300                       -- duration                (line 334)
  let pv ← poissonDraw 3                      -- page_views              (line 335)
  let pageViews := max 1 pv
  pure { session_id := sid, customer_id := cid, session_days_back := pyInt db,
         traffic_source := tr, device_type := dev,
         session_duration_seconds := pyInt (max 30 dur),
         page_views := pageViews,
         bounced := if pageViews = 1 then 1 else 0,
         converted := decide (sid ≤ orders.length),     -- (line 339)
         revenue := if sid ≤ orders.length
           then ((orders.get? (sid - 1)).map Order.total_amount).getD 0
           else 0 }                                     -- (line 351)

/-- Models `generate_web_analytics` (lines 297-360): `5 * len(orders)` sessions;
raises on an empty result. -/
def generate_web_analytics (customers : List Customer) (orders : List Order) :
    Gen (List Session) := do
  let ss ← genFor (genSession customers orders) 1 (orders.length * 5)
  if ss.isEmpty then Gen.fail else pure ss

/-- Models `generate_all_data` (lines 362-386): the four stages in dependency
order, consuming the single random source sequentially. -/
def generate_all_data (cfg : EcommerceDataGenerator) : Gen AllData := do
  let cs ← generate_customers cfg
  let ps ← generate_products cfg
  let (os, its) ← generate_orders cfg cs ps
  let ws ← generate_web_analytics cs os
  pure ⟨cs, ps, os, its, ws⟩

/-! ## Concrete fixtures

Small concrete inputs used to exercise the generators: a fixed oracle
prefix (draws beyond the listed prefix are `1`), together with the tables
and rows the runs produce. -/

/-- An oracle stream from a finite prefix; later draws are `1`. -/
def mkStream (l : List ℚ) : ℕ → ℚ := fun k => l.getD k 1

/-- One customer, two products, one requested order. -/
def cfgF : EcommerceDataGenerator := ⟨1, 2, 1, 100, fun _ => 0⟩

def csF : List Customer := [⟨7, 1, 0, 0, true⟩]

def psF : List Product :=
  [⟨11, 0, 21/25, 1/2, 1, true⟩, ⟨12, 0, 21/25, 1/2, 1, true⟩]

/-- Draws for one candidate order: customer, date, seasonality (pass),
status, free shipping, payment, two items of one unit each at a 0.6 price
variation, and no promotional discount. -/
def rF : Rand :=
  ⟨mkStream [3/10, 5, 1/10, 1/2, 1/20, 1/2, 2, 0, 0, 1, 3/5, 1, 3/5, 1/2], 0⟩

/-- The order emitted by `generate_orders cfgF csF psF rF`: both raw item
totals are `0.504`, so the stored item rows say `0.50` each while the
stored order totals reconstruct the subtotal as `1.09 - 0.08 - 0 + 0`. -/
def oF : Order := ⟨1, 7, 5, 0, 0, 0, 0, 2/25, 109/100⟩

def itsF : List OrderItem := [⟨1, 11, 1, 1/2, 1/2⟩, ⟨1, 12, 1, 1/2, 1/2⟩]

/-- Two requested orders; candidate 1 is discarded by the seasonality
draw `0.9 > 0.7/1.5` and candidate 2 is emitted. -/
def cfgF2 : EcommerceDataGenerator := ⟨1, 2, 2, 100, fun _ => 0⟩

def rF2 : Rand :=
  ⟨mkStream [3/10, 5, 9/10,
    3/10, 5, 1/10, 1/2, 1/20, 1/2, 2, 0, 0, 1, 3/5, 1, 3/5, 1/2], 0⟩

/-- An empty product catalog with one requested order. -/
def cfgF9 : EcommerceDataGenerator := ⟨1, 0, 1, 100, fun _ => 0⟩

def rF9 : Rand := ⟨mkStream [3/10, 5, 1/10, 1/2, 1/20, 1/2, 2, 1/2], 0⟩

/-- Full-pipeline fixture: one customer, one product whose base-price draw
`0.001` makes the stored price round to `0.00`, one order (total `0`),
five sessions. -/
def cfgF6 : EcommerceDataGenerator := ⟨1, 1, 1, 100, fun _ => 0⟩

def listF6 : List ℚ :=
  [1, 1, 1, 1, 1, 1, 1, 1,
   1, 1/1000, 1, 1, 1, 1, 1, 1, 1, 1, 1, 1, 1,
   1, 1, 0, 1, 0, 1, 1, 1, 1, 1, 1]

def rF6 : Rand := ⟨mkStream listF6, 0⟩

/-- Product fixture whose margin draw `0.05` saturates at the floor `0.10`
and whose raw price is `0.01`, so the stored cost rounds up to the stored
price. -/
def streamF3 : ℕ → ℚ :=
  fun k => if k = 0 then 2/5 else if k = 1 then 1/40 else if k = 2 then 1/20 else 1

def cfgF3 : EcommerceDataGenerator := ⟨1, 1, 1, 100, fun _ => 0⟩

def rF3 : Rand := ⟨streamF3, 0⟩

def pF3 : Product := ⟨1, 3, 1/100, 1/100, 1, false⟩

/-- Session-stage fixture over the single order `oF`. -/
def osWF : List Order := [oF]

def rS : Rand :=
  ⟨mkStream [7/10, 3, 1/2, 1/2, 100, 2,
    1/2, 0, 2, 1/2, 1/2, 50, 1,
    7/10, 3, 1/2, 1/2, 100, 2,
    7/10, 3, 1/2, 1/2, 100, 2,
    7/10, 3, 1/2, 1/2, 100, 2], 0⟩

/-! ## Value-level descriptions of the sampling steps

These definitions re-express the values produced by the generation steps
directly in terms of the oracle stream `s` and the cursor position `p` at
which the step starts.  Cursor positions are written in the nested form
(`p + 1 + 1`) produced by sequential consumption, so that the
characterisation lemmas below are definitional. -/

/-- The unrounded `item_total` of each sampled product, in order
(lines 246-252): quantity `max 1 ⌊s p⌋` times
`price * max(0.5, s (p+1))`. -/
def rawItemTotals : List Product → (ℕ → ℚ) → ℕ → List ℚ
  | [], _, _ => []
  | q :: qs, s, p =>
    ((max 1 (⌊s p⌋).toNat : ℕ) : ℚ) * (q.price * max (1/2) (s (p + 1))) ::
      rawItemTotals qs s (p + 1 + 1)

/-- The emitted order-item rows for the sampled products (lines 255-261). -/
def itemsAt (oid : ℕ) : List Product → (ℕ → ℚ) → ℕ → List OrderItem
  | [], _, _ => []
  | q :: qs, s, p =>
    { order_id := oid, product_id := q.product_id,
      quantity := max 1 (⌊s p⌋).toNat,
      unit_price := round2 (q.price * max (1/2) (s (p + 1))),
      total_price :=
        round2 (((max 1 (⌊s p⌋).toNat : ℕ) : ℚ) * (q.price * max (1/2) (s (p + 1)))) } ::
      itemsAt oid qs s (p + 1 + 1)

/-- The discount rate drawn at cursor `p` for pre-discount subtotal `S`
(lines 265-269): a `Uniform(0.05, 0.15)` draw if `S > 200`, else with
probability `0.1` a `Uniform(0.10, 0.25)` draw, else `0`. -/
def discRateVal (S : ℚ) (s : ℕ → ℚ) (p : ℕ) : ℚ :=
  if 200 < S then 1/20 + (3/20 - 1/20) * s p
  else if s p < 1/10 then 1/10 + (1/4 - 1/10) * s (p + 1)
  else 0

/-- The order row emitted by the totals computation (lines 264-286) when
the discount draw starts at cursor `p`. -/
def orderAt (oid : ℕ) (pre : PreOrder) (s : ℕ → ℚ) (p : ℕ) : Order :=
  let rate := discRateVal pre.order_total s p
  let disc := pre.order_total * rate
  let sub := pre.order_total - disc
  let tax := sub * (2/25)
  { order_id := oid, customer_id := pre.customer_id,
    order_days_back := pre.order_days_back, status := pre.status,
    payment_method := pre.payment_method,
    shipping_cost := round2 pre.ship_raw,
    discount_amount := round2 disc, tax_amount := round2 tax,
    total_amount := round2 (sub + tax + pre.ship_raw) }

/-- The candidate order date of a candidate starting at cursor `r.pos`,
as a day offset (line 199-201): the exponential draw sits one position
after the customer-selection draw. -/
def candDaysBack (cfg : EcommerceDataGenerator) (r : Rand) : ℤ :=
  pyInt (min (r.stream (r.pos + 1)) (cfg.range_days : ℚ))

/-- The seasonality uniform draw of a candidate starting at cursor `r.pos`
(line 205): the third value the candidate consumes. -/
def candSeasonU (r : Rand) : ℚ := r.stream (r.pos + 2)

/-! ## Basic lemmas about the oracle model -/

theorem run_bind {α β : Type} (g : Gen α) (f : α → Gen β) (r : Rand) :
    (g >>= f) r = (g r).bind (fun p => f p.1 p.2) := rfl

theorem run_pure {α : Type} (a : α) (r : Rand) :
    (Pure.pure a : Gen α) r = some (a, r) := rfl

/-- Rounding to two decimals moves a value by at most `1/200 = 0.005`. -/
theorem round2_abs_sub (x : ℚ) : |round2 x - x| ≤ 1 / 200 := by
  have h := abs_sub_round (x * 100)
  rw [abs_sub_comm] at h
  have hx : round2 x - x = ((round (x * 100) : ℚ) - x * 100) / 100 := by
    unfold round2; ring
  rw [hx, abs_div]
  rw [show |(100 : ℚ)| = 100 by norm_num]
  linarith

/-- Two-decimal rounding is monotone. -/
theorem round2_mono {x y : ℚ} (h : x ≤ y) : round2 x ≤ round2 y := by
  unfold round2
  have hr : round (x * 100) ≤ round (y * 100) := by
    rw [round_eq, round_eq]
    exact Int.floor_mono (by linarith)
  have hc : ((round (x * 100) : ℤ) : ℚ) ≤ ((round (y * 100) : ℤ) : ℚ) :=
    Int.cast_le.mpr hr
  linarith

/-- Summing two-decimal roundings moves the sum by at most `n/200`. -/
theorem sum_map_round2_close (l : List ℚ) :
    |(l.map round2).sum - l.sum| ≤ (l.length : ℚ) * (1 / 200) := by
  induction l with
  | nil => simp
  | cons x xs ih =>
    simp only [List.map_cons, List.sum_cons, List.length_cons]
    have h1 := round2_abs_sub x
    have h2 : |round2 x + (xs.map round2).sum - (x + xs.sum)|
        ≤ |round2 x - x| + |(xs.map round2).sum - xs.sum| := by
      have := abs_add (round2 x - x) ((xs.map round2).sum - xs.sum)
      calc |round2 x + (xs.map round2).sum - (x + xs.sum)|
          = |(round2 x - x) + ((xs.map round2).sum - xs.sum)| := by ring_nf
        _ ≤ _ := this
    push_cast
    linarith

/-! ## Tameness and prefix determinism of generation steps -/

/-- A step is tame when it never rewrites the oracle stream and never moves
the cursor backwards. -/
def Tame {α : Type} (g : Gen α) : Prop :=
  ∀ r a r₂, g r = some (a, r₂) → r₂.stream = r.stream ∧ r.pos ≤ r₂.pos

/-- A step is prefix-deterministic when a successful run is reproduced by
any oracle agreeing on the consumed prefix. -/
def PDet {α : Type} (g : Gen α) : Prop :=
  ∀ r r' a r₂, r.pos = r'.pos → g r = some (a, r₂) →
    (∀ k, r.pos ≤ k → k < r₂.pos → r.stream k = r'.stream k) →
    g r' = some (a, ⟨r'.stream, r₂.pos⟩)

def WF {α : Type} (g : Gen α) : Prop := Tame g ∧ PDet g

theorem wf_pure {α : Type} (a : α) : WF (Pure.pure a : Gen α) := by
  constructor
  · intro r b r₂ h
    cases h
    exact ⟨rfl, le_refl _⟩
  · intro r r' b r₂ hpos h hag
    cases h
    show some (a, r') = some (a, (⟨r'.stream, r.pos⟩ : Rand))
    rw [hpos]

theorem wf_fail {α : Type} : WF (Gen.fail : Gen α) := by
  constructor
  · intro r a r₂ h; cases h
  · intro r r' a r₂ _ h _; cases h

theorem wf_nextQ : WF nextQ := by
  constructor
  · intro r a r₂ h
    cases h
    exact ⟨rfl, Nat.le_succ _⟩
  · intro r r' a r₂ hpos h hag
    cases h
    have hv : r'.stream r'.pos = r.stream r.pos := by
      rw [← hpos]
      exact (hag r.pos (le_refl _) (Nat.lt_succ_self _)).symm
    show some (r'.stream r'.pos, (⟨r'.stream, r'.pos + 1⟩ : Rand))
        = some (r.stream r.pos, (⟨r'.stream, r.pos + 1⟩ : Rand))
    rw [hv, hpos]

theorem wf_bind {α β : Type} {g : Gen α} {f : α → Gen β}
    (hg : WF g) (hf : ∀ a, WF (f a)) : WF (g >>= f) := by
  constructor
  · intro r b r₂ h
    rw [run_bind] at h
    cases hga : g r with
    | none => rw [hga] at h; cases h
    | some p =>
      obtain ⟨a, r₁⟩ := p
      rw [hga] at h
      have h' : f a r₁ = some (b, r₂) := h
      obtain ⟨hs1, hp1⟩ := hg.1 r a r₁ hga
      obtain ⟨hs2, hp2⟩ := (hf a).1 r₁ b r₂ h'
      exact ⟨hs2.trans hs1, le_trans hp1 hp2⟩
  · intro r r' b r₂ hpos h hag
    rw [run_bind] at h
    cases hga : g r with
    | none => rw [hga] at h; cases h
    | some p =>
      obtain ⟨a, r₁⟩ := p
      rw [hga] at h
      have h' : f a r₁ = some (b, r₂) := h
      obtain ⟨hs1, hp1⟩ := hg.1 r a r₁ hga
      obtain ⟨hs2, hp2⟩ := (hf a).1 r₁ b r₂ h'
      have hg' : g r' = some (a, ⟨r'.stream, r₁.pos⟩) :=
        hg.2 r r' a r₁ hpos hga
          (fun k hk1 hk2 => hag k hk1 (lt_of_lt_of_le hk2 hp2))
      have hf' : f a ⟨r'.stream, r₁.pos⟩ = some (b, ⟨r'.stream, r₂.pos⟩) := by
        apply (hf a).2 r₁ ⟨r'.stream, r₁.pos⟩ b r₂ rfl h'
        intro k hk1 hk2
        rw [hs1]
        exact hag k (le_trans hp1 hk1) hk2
      rw [run_bind, hg']
      exact hf'

theorem wf_ite {α : Type} (c : Prop) [Decidable c] {g₁ g₂ : Gen α}
    (h₁ : WF g₁) (h₂ : WF g₂) : WF (if c then g₁ else g₂) := by
  by_cases hc : c
  · simpa [hc] using h₁
  · simpa [hc] using h₂

theorem wf_genFor {α : Type} {body : ℕ → Gen α} (hb : ∀ i, WF (body i)) :
    ∀ n start, WF (genFor body start n) := by
  intro n
  induction n with
  | zero => intro start; exact wf_pure []
  | succ n ih =>
    intro start
    exact wf_bind (hb start)
      (fun a => wf_bind (ih (start + 1)) (fun as => wf_pure (a :: as)))

theorem wf_randFloat : WF randFloat := wf_nextQ
theorem wf_fakerDraw : WF fakerDraw := wf_nextQ
theorem wf_expDraw (m : ℚ) : WF (expDraw m) := wf_nextQ
theorem wf_normalDraw (mu s : ℚ) : WF (normalDraw mu s) := wf_nextQ
theorem wf_lognormalDraw (mu s : ℚ) : WF (lognormalDraw mu s) := wf_nextQ
theorem wf_poissonDraw (lam : ℚ) : WF (poissonDraw lam) :=
  wf_bind wf_nextQ (fun v => wf_pure _)
theorem wf_uniformDraw (a b : ℚ) : WF (uniformDraw a b) :=
  wf_bind wf_nextQ (fun u => wf_pure _)
theorem wf_choiceIdx (ps : List ℚ) : WF (choiceIdx ps) :=
  wf_bind wf_nextQ (fun u => wf_pure _)
theorem wf_boolChoice (p : ℚ) : WF (boolChoice p) :=
  wf_bind wf_nextQ (fun u => wf_pure _)
theorem wf_uniformChoiceIdx (n : ℕ) : WF (uniformChoiceIdx n) :=
  wf_bind wf_nextQ (fun u => wf_pure _)

theorem wf_genCustomer (cfg : EcommerceDataGenerator) (i : ℕ) :
    WF (genCustomer cfg i) :=
  wf_bind wf_fakerDraw fun _ =>
  wf_bind (wf_choiceIdx _) fun _ =>
  wf_bind (wf_choiceIdx _) fun _ =>
  wf_bind (wf_expDraw _) fun _ =>
  wf_bind wf_fakerDraw fun _ =>
  wf_bind wf_fakerDraw fun _ =>
  wf_bind wf_fakerDraw fun _ =>
  wf_bind (wf_boolChoice _) fun _ => wf_pure _

theorem wf_generate_customers (cfg : EcommerceDataGenerator) :
    WF (generate_customers cfg) :=
  wf_bind (wf_genFor (wf_genCustomer cfg) _ _) fun cs =>
    wf_ite _ wf_fail (wf_pure _)

theorem wf_genProduct (cfg : EcommerceDataGenerator) (i : ℕ) :
    WF (genProduct cfg i) :=
  wf_bind (wf_uniformChoiceIdx 8) fun _ =>
  wf_bind (wf_lognormalDraw _ _) fun _ =>
  wf_bind (wf_normalDraw _ _) fun _ =>
  wf_bind wf_fakerDraw fun _ =>
  wf_bind wf_fakerDraw fun _ =>
  wf_bind wf_fakerDraw fun _ =>
  wf_bind wf_fakerDraw fun _ =>
  wf_bind (wf_lognormalDraw _ _) fun _ =>
  wf_bind wf_fakerDraw fun _ =>
  wf_bind wf_fakerDraw fun _ =>
  wf_bind wf_fakerDraw fun _ =>
  wf_bind wf_fakerDraw fun _ =>
  wf_bind (wf_boolChoice _) fun _ => wf_pure _

theorem wf_generate_products (cfg : EcommerceDataGenerator) :
    WF (generate_products cfg) :=
  wf_bind (wf_genFor (wf_genProduct cfg) _ _) fun ps =>
    wf_ite _ wf_fail (wf_pure _)

theorem wf_shippingDraw : WF shippingDraw :=
  wf_bind wf_nextQ fun u =>
    wf_ite _ (wf_pure _) (wf_bind (wf_normalDraw _ _) fun _ => wf_pure _)

theorem wf_sampleProducts : ∀ k pool, WF (sampleProducts pool k) := by
  intro k
  induction k with
  | zero => intro pool; exact wf_pure []
  | succ k ih =>
    intro pool
    exact wf_bind wf_nextQ fun u => wf_bind (ih _) fun rest => wf_pure _

theorem wf_genItem (oid : ℕ) (p : Product) : WF (genItem oid p) :=
  wf_bind (wf_poissonDraw _) fun _ =>
  wf_bind (wf_normalDraw _ _) fun _ => wf_pure _

theorem wf_genItems (oid : ℕ) : ∀ sel, WF (genItems oid sel) := by
  intro sel
  induction sel with
  | nil => exact wf_pure _
  | cons p ps ih =>
    exact wf_bind (wf_genItem oid p) fun x =>
      wf_bind ih fun y => wf_pure _

theorem wf_discountRate (s : ℚ) : WF (discountRate s) :=
  wf_ite _ (wf_uniformDraw _ _)
    (wf_bind wf_nextQ fun u => wf_ite _ (wf_uniformDraw _ _) (wf_pure _))

theorem wf_candSetup (cfg : EcommerceDataGenerator) (cs : List Customer)
    (ps : List Product) (oid : ℕ) : WF (candSetup cfg cs ps oid) := by
  unfold candSetup
  refine wf_ite _ wf_fail ?_
  exact wf_bind wf_nextQ fun uc =>
    wf_bind (wf_expDraw _) fun db =>
    wf_bind wf_nextQ fun us =>
    wf_ite _ (wf_pure _)
      (wf_bind (wf_choiceIdx _) fun st =>
       wf_bind wf_shippingDraw fun ship =>
       wf_bind (wf_choiceIdx _) fun pay =>
       wf_bind (wf_poissonDraw _) fun pv =>
       wf_bind (wf_sampleProducts _ _) fun sel =>
       wf_bind (wf_genItems oid sel) fun x => wf_pure _)

theorem wf_candFinish (oid : ℕ) (pre : PreOrder) : WF (candFinish oid pre) :=
  wf_bind (wf_discountRate _) fun rate => wf_pure _

theorem wf_genOrderCandidate (cfg : EcommerceDataGenerator) (cs : List Customer)
    (ps : List Product) (oid : ℕ) : WF (genOrderCandidate cfg cs ps oid) := by
  refine wf_bind (wf_candSetup cfg cs ps oid) ?_
  intro p
  cases p with
  | none => exact wf_pure _
  | some pre => exact wf_bind (wf_candFinish oid pre) fun x => wf_pure _

theorem wf_generate_orders (cfg : EcommerceDataGenerator) (cs : List Customer)
    (ps : List Product) : WF (generate_orders cfg cs ps) :=
  wf_bind (wf_genFor (wf_genOrderCandidate cfg cs ps) _ _) fun results =>
    wf_ite _ wf_fail (wf_pure _)

theorem wf_sessionCustomer (cs : List Customer) : WF (sessionCustomer cs) := by
  unfold sessionCustomer
  exact wf_ite _ wf_fail (wf_bind wf_nextQ fun v => wf_pure _)

theorem wf_sessionMaybeCustomer (cs : List Customer) (u : ℚ) :
    WF (sessionMaybeCustomer cs u) :=
  wf_ite _ (wf_sessionCustomer cs) (wf_pure _)

theorem wf_genSession (cs : List Customer) (os : List Order) (sid : ℕ) :
    WF (genSession cs os sid) :=
  wf_bind wf_nextQ fun u =>
  wf_bind (wf_sessionMaybeCustomer cs u) fun cid =>
  wf_bind (wf_expDraw _) fun db =>
  wf_bind (wf_choiceIdx _) fun tr =>
  wf_bind (wf_choiceIdx _) fun dev =>
  wf_bind (wf_expDraw _) fun dur =>
  wf_bind (wf_poissonDraw _) fun pv => wf_pure _

theorem wf_generate_web_analytics (cs : List Customer) (os : List Order) :
    WF (generate_web_analytics cs os) :=
  wf_bind (wf_genFor (wf_genSession cs os) _ _) fun ss =>
    wf_ite _ wf_fail (wf_pure _)

theorem wf_generate_all_data (cfg : EcommerceDataGenerator) :
    WF (generate_all_data cfg) := by
  refine wf_bind (wf_generate_customers cfg) fun cs => ?_
  refine wf_bind (wf_generate_products cfg) fun ps => ?_
  refine wf_bind (wf_generate_orders cfg cs ps) fun x => ?_
  obtain ⟨os, its⟩ := x
  exact wf_bind (wf_generate_web_analytics cs os) fun ws => wf_pure _

/-! ## Run equations and index lemmas -/

theorem nextQ_run (r : Rand) :
    nextQ r = some (r.stream r.pos, ⟨r.stream, r.pos + 1⟩) := rfl

theorem choiceIdx_run (ps : List ℚ) (r : Rand) :
    choiceIdx ps r
      = some (weightedIndex ps (r.stream r.pos), ⟨r.stream, r.pos + 1⟩) := rfl

theorem poissonDraw_run (lam : ℚ) (r : Rand) :
    poissonDraw lam r = some ((⌊r.stream r.pos⌋).toNat, ⟨r.stream, r.pos + 1⟩) := rfl

theorem weightedIndex_lt (ws : List ℚ) (u : ℚ) (h : ws ≠ []) :
    weightedIndex ws u < ws.length := by
  have hl : 0 < ws.length := List.length_pos.mpr h
  exact lt_of_le_of_lt (min_le_right _ _) (by omega)

theorem pickIdx_lt (u : ℚ) {n : ℕ} (h : 0 < n) : pickIdx u n < n :=
  lt_of_le_of_lt (min_le_right _ _) (by omega)

theorem getD_mem {α : Type} {l : List α} {i : ℕ} (d : α) (h : i < l.length) :
    l.getD i d ∈ l := by
  rw [List.getD_eq_getElem?_getD, List.getElem?_eq_getElem h]
  simpa using List.getElem_mem h

/-- A successful `Option` computation from its first projection. -/
theorem ofMapFst {α : Type} {e : Option (α × Rand)} {a : α}
    (h : e.map Prod.fst = some a) : ∃ r₂, e = some (a, r₂) := by
  cases e with
  | none => cases h
  | some p =>
    refine ⟨p.2, ?_⟩
    have hp : p.1 = a := by simpa using h
    rw [← hp]

/-- One unfolding of the product sampler (line 243). -/
theorem sampleProducts_succ_run (k : ℕ) (pool : List Product) (r : Rand) :
    sampleProducts pool (k + 1) r
      = (sampleProducts (pool.eraseIdx (pickIdx (r.stream r.pos) pool.length)) k
          ⟨r.stream, r.pos + 1⟩).bind
          (fun x =>
            some (pool.getD (pickIdx (r.stream r.pos) pool.length) dfltProduct :: x.1,
              x.2)) := rfl

/-- Sampling without replacement always succeeds. -/
theorem sampleProducts_total : ∀ (k : ℕ) (pool : List Product) (r : Rand),
    ∃ sel r₂, sampleProducts pool k r = some (sel, r₂) := by
  intro k
  induction k with
  | zero => exact fun pool r => ⟨[], r, rfl⟩
  | succ k ih =>
    intro pool r
    obtain ⟨sel, r₂, hrec⟩ :=
      ih (pool.eraseIdx (pickIdx (r.stream r.pos) pool.length)) ⟨r.stream, r.pos + 1⟩
    refine ⟨pool.getD (pickIdx (r.stream r.pos) pool.length) dfltProduct :: sel, r₂, ?_⟩
    rw [sampleProducts_succ_run, hrec]
    rfl

/-- The members of a without-replacement sample come from the pool
(whenever the requested size does not exceed the pool, as at line 243). -/
theorem sampleProducts_mem : ∀ (k : ℕ) (pool : List Product) (r : Rand)
    (sel : List Product) (r₂ : Rand), k ≤ pool.length →
    sampleProducts pool k r = some (sel, r₂) → ∀ q ∈ sel, q ∈ pool := by
  intro k
  induction k with
  | zero =>
    intro pool r sel r₂ _ h q hq
    cases h
    cases hq
  | succ k ih =>
    intro pool r sel r₂ hk h q hq
    have hlen : 0 < pool.length := by omega
    have hi : pickIdx (r.stream r.pos) pool.length < pool.length := pickIdx_lt _ hlen
    rw [sampleProducts_succ_run] at h
    cases hrec : sampleProducts (pool.eraseIdx (pickIdx (r.stream r.pos) pool.length)) k
        ⟨r.stream, r.pos + 1⟩ with
    | none => rw [hrec] at h; cases h
    | some p =>
      rw [hrec] at h
      obtain ⟨sel', r₂'⟩ := p
      have hsel : pool.getD (pickIdx (r.stream r.pos) pool.length) dfltProduct :: sel' = sel := by
        have := (Option.some.injEq _ _).mp h
        exact congrArg Prod.fst this
      rw [← hsel] at hq
      rcases List.mem_cons.mp hq with hq1 | hq2
      · rw [hq1]; exact getD_mem _ hi
      · have hk' : k ≤ (pool.eraseIdx (pickIdx (r.stream r.pos) pool.length)).length := by
          rw [List.length_eraseIdx_of_lt hi]; omega
        exact List.eraseIdx_subset _ _ (ih _ _ _ _ hk' hrec q hq2)

/-! ## Characterisation of the item loop and the totals computation -/

theorem genItems_run (oid : ℕ) : ∀ (sel : List Product) (r : Rand),
    ∃ r₂, genItems oid sel r
      = some ((itemsAt oid sel r.stream r.pos,
          (rawItemTotals sel r.stream r.pos).sum), r₂) := by
  intro sel
  induction sel with
  | nil => intro r; exact ⟨r, rfl⟩
  | cons q qs ih =>
    intro r
    obtain ⟨r₂, hrec⟩ := ih ⟨r.stream, r.pos + 1 + 1⟩
    refine ⟨r₂, ?_⟩
    have h2 : genItems oid (q :: qs) r
        = (genItems oid qs ⟨r.stream, r.pos + 1 + 1⟩).bind
            (fun y => some
              ((({ order_id := oid, product_id := q.product_id,
                   quantity := max 1 (⌊r.stream r.pos⌋).toNat,
                   unit_price := round2 (q.price * max (1/2) (r.stream (r.pos + 1))),
                   total_price :=
                     round2 (((max 1 (⌊r.stream r.pos⌋).toNat : ℕ) : ℚ) *
                       (q.price * max (1/2) (r.stream (r.pos + 1)))) } : OrderItem) :: y.1.1,
                 ((max 1 (⌊r.stream r.pos⌋).toNat : ℕ) : ℚ) *
                   (q.price * max (1/2) (r.stream (r.pos + 1))) + y.1.2),
               y.2)) := rfl
    rw [h2, hrec]
    rfl

theorem itemsAt_oid (oid : ℕ) : ∀ (sel : List Product) (s : ℕ → ℚ) (p : ℕ),
    ∀ it ∈ itemsAt oid sel s p, it.order_id = oid := by
  intro sel
  induction sel with
  | nil => intro s p it hit; cases hit
  | cons q qs ih =>
    intro s p it hit
    rcases List.mem_cons.mp hit with h | h
    · rw [h]
    · exact ih s (p + 1 + 1) it h

theorem itemsAt_product_mem (oid : ℕ) : ∀ (sel : List Product) (s : ℕ → ℚ) (p : ℕ),
    ∀ it ∈ itemsAt oid sel s p, ∃ q ∈ sel, it.product_id = q.product_id := by
  intro sel
  induction sel with
  | nil => intro s p it hit; cases hit
  | cons q qs ih =>
    intro s p it hit
    rcases List.mem_cons.mp hit with h | h
    · exact ⟨q, List.mem_cons_self q qs, by rw [h]⟩
    · obtain ⟨q', hq', he⟩ := ih s (p + 1 + 1) it h
      exact ⟨q', List.mem_cons_of_mem q hq', he⟩

theorem itemsAt_totals (oid : ℕ) : ∀ (sel : List Product) (s : ℕ → ℚ) (p : ℕ),
    (itemsAt oid sel s p).map OrderItem.total_price
      = (rawItemTotals sel s p).map round2 := by
  intro sel
  induction sel with
  | nil => intro s p; rfl
  | cons q qs ih =>
    intro s p
    simp only [itemsAt, rawItemTotals, List.map_cons]
    rw [ih s (p + 1 + 1)]

theorem itemsAt_length (oid : ℕ) : ∀ (sel : List Product) (s : ℕ → ℚ) (p : ℕ),
    (itemsAt oid sel s p).length = sel.length := by
  intro sel
  induction sel with
  | nil => intro s p; rfl
  | cons q qs ih =>
    intro s p
    simp only [itemsAt, List.length_cons]
    rw [ih s (p + 1 + 1)]

theorem rawItemTotals_length : ∀ (sel : List Product) (s : ℕ → ℚ) (p : ℕ),
    (rawItemTotals sel s p).length = sel.length := by
  intro sel
  induction sel with
  | nil => intro s p; rfl
  | cons q qs ih =>
    intro s p
    simp only [rawItemTotals, List.length_cons]
    rw [ih s (p + 1 + 1)]

theorem candFinish_run (oid : ℕ) (pre : PreOrder) (r : Rand) :
    ∃ r₂, candFinish oid pre r
      = some ((orderAt oid pre r.stream r.pos, pre.items), r₂) := by
  by_cases h1 : 200 < pre.order_total
  · refine ⟨⟨r.stream, r.pos + 1⟩, ?_⟩
    simp only [candFinish, discountRate, orderAt, discRateVal, if_pos h1, uniformDraw,
      randFloat, nextQ, run_bind, run_pure, Option.some_bind]
  · by_cases h2 : r.stream r.pos < 1/10
    · refine ⟨⟨r.stream, r.pos + 1 + 1⟩, ?_⟩
      simp only [candFinish, discountRate, orderAt, discRateVal, if_neg h1, if_pos h2,
        uniformDraw, randFloat, nextQ, run_bind, run_pure, Option.some_bind]
    · refine ⟨⟨r.stream, r.pos + 1⟩, ?_⟩
      simp only [candFinish, discountRate, orderAt, discRateVal, if_neg h1, if_neg h2,
        uniformDraw, randFloat, nextQ, run_bind, run_pure, Option.some_bind]

theorem cand_emit_run (cfg : EcommerceDataGenerator) (cs : List Customer)
    (ps : List Product) (oid : ℕ) (r : Rand) (o : Order) (its : List OrderItem)
    (r₂ : Rand)
    (h : genOrderCandidate cfg cs ps oid r = some (some (o, its), r₂)) :
    ∃ pre r₁, candSetup cfg cs ps oid r = some (some pre, r₁) ∧
      o = orderAt oid pre r₁.stream r₁.pos ∧ its = pre.items := by
  unfold genOrderCandidate at h
  rw [run_bind] at h
  cases hset : candSetup cfg cs ps oid r with
  | none => rw [hset] at h; cases h
  | some p =>
    rw [hset] at h
    obtain ⟨po, r₁⟩ := p
    cases po with
    | none => simp [run_pure] at h
    | some pre =>
      obtain ⟨r₂', hfin⟩ := candFinish_run oid pre r₁
      have h' : ((candFinish oid pre >>= fun x => Pure.pure (some x)) r₁)
          = some (some (o, its), r₂) := h
      rw [run_bind, hfin] at h'
      simp only [run_pure, Option.some_bind, Option.some.injEq, Prod.mk.injEq] at h'
      obtain ⟨⟨ho, hits⟩, _⟩ := h'
      exact ⟨pre, r₁, rfl, ho.symm, hits.symm⟩

/-! ## Characterisation of the candidate-order step -/

/-- Seasonality skip (lines 204-206): when the uniform draw exceeds
`month_weight / 1.5` the candidate is discarded after consuming exactly the
customer, date and seasonality draws. -/
theorem candSetup_skip (cfg : EcommerceDataGenerator) (cs : List Customer)
    (ps : List Product) (oid : ℕ) (r : Rand) (hcs : cs.isEmpty = false)
    (hskip : monthWeight (cfg.month_of (candDaysBack cfg r)) / (3/2) < candSeasonU r) :
    candSetup cfg cs ps oid r = some (none, ⟨r.stream, r.pos + 3⟩) := by
  simp only [candDaysBack, candSeasonU] at hskip
  simp [candSetup, randFloat, expDraw, nextQ, run_bind, run_pure, hcs, hskip]

/-- A candidate that passes the seasonality check emits a pre-order whose
fields are exactly the sampled values (lines 209-262). -/
theorem candSetup_noskip (cfg : EcommerceDataGenerator) (cs : List Customer)
    (ps : List Product) (oid : ℕ) (r : Rand) (hcs : cs.isEmpty = false)
    (hskip : ¬ monthWeight (cfg.month_of (candDaysBack cfg r)) / (3/2) < candSeasonU r) :
    ∃ pre r₁, candSetup cfg cs ps oid r = some (some pre, r₁) ∧
      (∃ c ∈ cs, pre.customer_id = c.customer_id) ∧
      ∃ sel r₀, (∀ q ∈ sel, q ∈ ps) ∧
        genItems oid sel r₀ = some ((pre.items, pre.order_total), r₁) ∧
        pre.items = itemsAt oid sel r₀.stream r₀.pos ∧
        pre.order_total = (rawItemTotals sel r₀.stream r₀.pos).sum := by
  simp only [candDaysBack, candSeasonU] at hskip
  have hcsne : cs ≠ [] := by
    intro hnil
    rw [hnil] at hcs
    cases hcs
  have hcust : ∃ c ∈ cs,
      (cs.getD (weightedIndex (cs.map fun c => segFrequency c.customer_segment)
        (r.stream r.pos)) dfltCustomer).customer_id = c.customer_id := by
    have hlt : weightedIndex (cs.map fun c => segFrequency c.customer_segment)
        (r.stream r.pos) < cs.length := by
      have := weightedIndex_lt (cs.map fun c => segFrequency c.customer_segment)
        (r.stream r.pos) (by simpa using hcsne)
      simpa using this
    exact ⟨_, getD_mem dfltCustomer hlt, rfl⟩
  by_cases hship : r.stream (r.pos + 1 + 1 + 1 + 1) ≤ 1/10
  · -- free shipping: the candidate consumes 7 draws before product sampling
    obtain ⟨sel, r₇, hsel⟩ := sampleProducts_total
      (min (max 1 (⌊r.stream (r.pos + 1 + 1 + 1 + 1 + 1 + 1)⌋).toNat) ps.length) ps
      ⟨r.stream, r.pos + 1 + 1 + 1 + 1 + 1 + 1 + 1⟩
    obtain ⟨rI, hit⟩ := genItems_run oid sel r₇
    refine ⟨⟨(cs.getD (weightedIndex
          (cs.map fun c => segFrequency c.customer_segment) (r.stream r.pos))
          dfltCustomer).customer_id,
        pyInt (min (r.stream (r.pos + 1)) (cfg.range_days : ℚ)),
        weightedIndex statusP (r.stream (r.pos + 1 + 1 + 1)),
        weightedIndex paymentP (r.stream (r.pos + 1 + 1 + 1 + 1 + 1)),
        0,
        itemsAt oid sel r₇.stream r₇.pos,
        (rawItemTotals sel r₇.stream r₇.pos).sum⟩, rI, ?_, hcust, sel, r₇,
      ?_, hit, rfl, rfl⟩
    · simp only [candSetup, randFloat, expDraw, normalDraw, nextQ, choiceIdx, poissonDraw,
        shippingDraw, run_bind, run_pure, Option.some_bind, hcs, Bool.false_eq_true,
        if_false, hskip, hship, if_true]
      rw [hsel]
      simp only [Option.some_bind]
      rw [hit]
      rfl
    · exact fun q hq => sampleProducts_mem _ ps _ sel r₇ (min_le_right _ _) hsel q hq
  · -- paid shipping: one extra draw for the normal shipping cost
    obtain ⟨sel, r₇, hsel⟩ := sampleProducts_total
      (min (max 1 (⌊r.stream (r.pos + 1 + 1 + 1 + 1 + 1 + 1 + 1)⌋).toNat) ps.length) ps
      ⟨r.stream, r.pos + 1 + 1 + 1 + 1 + 1 + 1 + 1 + 1⟩
    obtain ⟨rI, hit⟩ := genItems_run oid sel r₇
    refine ⟨⟨(cs.getD (weightedIndex
          (cs.map fun c => segFrequency c.customer_segment) (r.stream r.pos))
          dfltCustomer).customer_id,
        pyInt (min (r.stream (r.pos + 1)) (cfg.range_days : ℚ)),
        weightedIndex statusP (r.stream (r.pos + 1 + 1 + 1)),
        weightedIndex paymentP (r.stream (r.pos + 1 + 1 + 1 + 1 + 1 + 1)),
        max 0 (r.stream (r.pos + 1 + 1 + 1 + 1 + 1)),
        itemsAt oid sel r₇.stream r₇.pos,
        (rawItemTotals sel r₇.stream r₇.pos).sum⟩, rI, ?_, hcust, sel, r₇,
      ?_, hit, rfl, rfl⟩
    · simp only [candSetup, randFloat, expDraw, normalDraw, nextQ, choiceIdx, poissonDraw,
        shippingDraw, run_bind, run_pure, Option.some_bind, hcs, Bool.false_eq_true,
        if_false, hskip, hship, if_true]
      rw [hsel]
      simp only [Option.some_bind]
      rw [hit]
      rfl
    · exact fun q hq => sampleProducts_mem _ ps _ sel r₇ (min_le_right _ _) hsel q hq

/-- Any successful emission of a pre-order satisfies the setup spec. -/
theorem candSetup_spec (cfg : EcommerceDataGenerator) (cs : List Customer)
    (ps : List Product) (oid : ℕ) (r : Rand) (pre : PreOrder) (r₁ : Rand)
    (h : candSetup cfg cs ps oid r = some (some pre, r₁)) :
    (∃ c ∈ cs, pre.customer_id = c.customer_id) ∧
    ∃ sel r₀, (∀ q ∈ sel, q ∈ ps) ∧
      genItems oid sel r₀ = some ((pre.items, pre.order_total), r₁) ∧
      pre.items = itemsAt oid sel r₀.stream r₀.pos ∧
      pre.order_total = (rawItemTotals sel r₀.stream r₀.pos).sum := by
  have hcs : cs.isEmpty = false := by
    cases hh : cs.isEmpty
    · rfl
    · unfold candSetup at h
      rw [hh] at h
      simp [Gen.fail] at h
  by_cases hskip : monthWeight (cfg.month_of (candDaysBack cfg r)) / (3/2) < candSeasonU r
  · rw [candSetup_skip cfg cs ps oid r hcs hskip] at h
    simp at h
  · obtain ⟨pre', r₁', heq, hcust, sel, r₀, hmem, hgi, hitems, htot⟩ :=
      candSetup_noskip cfg cs ps oid r hcs hskip
    rw [heq] at h
    simp only [Option.some.injEq, Prod.mk.injEq] at h
    obtain ⟨h1, h2⟩ := h
    subst h2
    cases h1
    exact ⟨hcust, sel, r₀, hmem, hgi, hitems, htot⟩

/-- Per-emission properties of a full candidate: its id tags, referential
integrity and the reconciliation bound between the stored item totals and
the stored order totals. -/
theorem cand_emit_spec (cfg : EcommerceDataGenerator) (cs : List Customer)
    (ps : List Product) (oid : ℕ) (r : Rand) (o : Order) (its : List OrderItem)
    (r₂ : Rand)
    (h : genOrderCandidate cfg cs ps oid r = some (some (o, its), r₂)) :
    o.order_id = oid ∧ (∀ it ∈ its, it.order_id = oid) ∧
    (∃ c ∈ cs, o.customer_id = c.customer_id) ∧
    (∀ it ∈ its, ∃ p ∈ ps, it.product_id = p.product_id) ∧
    |(its.map OrderItem.total_price).sum
        - (o.total_amount - o.tax_amount - o.shipping_cost + o.discount_amount)|
      ≤ (its.length : ℚ) * (1/200) + 4 * (1/200) := by
  obtain ⟨pre, r₁, hset, ho, hits⟩ := cand_emit_run cfg cs ps oid r o its r₂ h
  obtain ⟨hcust, sel, r₀, hmem, _hgi, hitems, htot⟩ :=
    candSetup_spec cfg cs ps oid r pre r₁ hset
  subst ho
  subst hits
  refine ⟨rfl, ?_, ?_, ?_, ?_⟩
  · intro it hit
    rw [hitems] at hit
    exact itemsAt_oid oid sel r₀.stream r₀.pos it hit
  · obtain ⟨c, hc, he⟩ := hcust
    exact ⟨c, hc, he⟩
  · intro it hit
    rw [hitems] at hit
    obtain ⟨q, hq, he⟩ := itemsAt_product_mem oid sel r₀.stream r₀.pos it hit
    exact ⟨q, hmem q hq, he⟩
  · -- reconciliation: write the stored fields as roundings of the raw chain
    set S := pre.order_total with hS
    set rate := discRateVal pre.order_total r₁.stream r₁.pos with hrate
    have hsum : (pre.items.map OrderItem.total_price).sum
        = ((rawItemTotals sel r₀.stream r₀.pos).map round2).sum := by
      rw [hitems, itemsAt_totals]
    have hlen : pre.items.length = (rawItemTotals sel r₀.stream r₀.pos).length := by
      rw [hitems, itemsAt_length, rawItemTotals_length]
    have hclose : |(pre.items.map OrderItem.total_price).sum - S|
        ≤ (pre.items.length : ℚ) * (1/200) := by
      rw [hsum, hlen, htot]
      exact sum_map_round2_close (rawItemTotals sel r₀.stream r₀.pos)
    have e1 := round2_abs_sub (S - S * rate)
    have e2 := round2_abs_sub ((S - S * rate) * (2/25))
    have e3 := round2_abs_sub pre.ship_raw
    have e4 := round2_abs_sub ((S - S * rate) + (S - S * rate) * (2/25) + pre.ship_raw)
    have habs : ∀ x : ℚ, |x| ≤ 1/200 → -(1/200) ≤ x ∧ x ≤ 1/200 := by
      intro x hx
      constructor <;> [linarith [neg_abs_le x]; linarith [le_abs_self x]]
    obtain ⟨e1a, e1b⟩ := habs _ e1
    obtain ⟨e2a, e2b⟩ := habs _ e2
    obtain ⟨e3a, e3b⟩ := habs _ e3
    obtain ⟨e4a, e4b⟩ := habs _ e4
    obtain ⟨ca, cb⟩ : -((pre.items.length : ℚ) * (1/200))
        ≤ (pre.items.map OrderItem.total_price).sum - S ∧
        (pre.items.map OrderItem.total_price).sum - S
          ≤ (pre.items.length : ℚ) * (1/200) := by
      constructor <;> [linarith [neg_abs_le ((pre.items.map OrderItem.total_price).sum - S)];
        linarith [le_abs_self ((pre.items.map OrderItem.total_price).sum - S)]]
    show |(pre.items.map OrderItem.total_price).sum
        - ((orderAt oid pre r₁.stream r₁.pos).total_amount
          - (orderAt oid pre r₁.stream r₁.pos).tax_amount
          - (orderAt oid pre r₁.stream r₁.pos).shipping_cost
          + (orderAt oid pre r₁.stream r₁.pos).discount_amount)|
      ≤ (pre.items.length : ℚ) * (1/200) + 4 * (1/200)
    have hfields : (orderAt oid pre r₁.stream r₁.pos).total_amount
          = round2 ((S - S * rate) + (S - S * rate) * (2/25) + pre.ship_raw)
        ∧ (orderAt oid pre r₁.stream r₁.pos).tax_amount
          = round2 ((S - S * rate) * (2/25))
        ∧ (orderAt oid pre r₁.stream r₁.pos).shipping_cost = round2 pre.ship_raw
        ∧ (orderAt oid pre r₁.stream r₁.pos).discount_amount = round2 (S * rate) := by
      rw [hS, hrate]
      exact ⟨rfl, rfl, rfl, rfl⟩
    obtain ⟨f1, f2, f3, f4⟩ := hfields
    rw [f1, f2, f3, f4]
    have e5 := round2_abs_sub (S * rate)
    obtain ⟨e5a, e5b⟩ := habs _ e5
    rw [abs_le]
    constructor
    · linarith
    · linarith

/-! ## Skip characterisation of a full candidate -/

theorem genOrderCandidate_skip (cfg : EcommerceDataGenerator) (cs : List Customer)
    (ps : List Product) (oid : ℕ) (r : Rand) (hcs : cs.isEmpty = false)
    (hskip : monthWeight (cfg.month_of (candDaysBack cfg r)) / (3/2) < candSeasonU r) :
    genOrderCandidate cfg cs ps oid r = some (none, ⟨r.stream, r.pos + 3⟩) := by
  unfold genOrderCandidate
  rw [run_bind, candSetup_skip cfg cs ps oid r hcs hskip]
  rfl

theorem genOrderCandidate_noskip (cfg : EcommerceDataGenerator) (cs : List Customer)
    (ps : List Product) (oid : ℕ) (r : Rand) (hcs : cs.isEmpty = false)
    (hskip : ¬ monthWeight (cfg.month_of (candDaysBack cfg r)) / (3/2) < candSeasonU r) :
    ∃ o its r₂, genOrderCandidate cfg cs ps oid r = some (some (o, its), r₂) := by
  obtain ⟨pre, r₁, heq, -, -⟩ := candSetup_noskip cfg cs ps oid r hcs hskip
  obtain ⟨r₂, hfin⟩ := candFinish_run oid pre r₁
  refine ⟨orderAt oid pre r₁.stream r₁.pos, pre.items, r₂, ?_⟩
  unfold genOrderCandidate
  rw [run_bind, heq]
  show ((candFinish oid pre >>= fun x => Pure.pure (some x)) r₁) = _
  rw [run_bind, hfin]
  rfl

/-- A candidate is discarded (emits `none`) exactly when the seasonality
draw exceeds `month_weight / 1.5` (lines 204-206). -/
theorem genOrderCandidate_skip_iff (cfg : EcommerceDataGenerator)
    (cs : List Customer) (ps : List Product) (oid : ℕ) (r : Rand)
    (hcs : cs.isEmpty = false) :
    (genOrderCandidate cfg cs ps oid r).map Prod.fst = some none ↔
      monthWeight (cfg.month_of (candDaysBack cfg r)) / (3/2) < candSeasonU r := by
  constructor
  · intro h
    by_contra hskip
    obtain ⟨o, its, r₂, heq⟩ := genOrderCandidate_noskip cfg cs ps oid r hcs hskip
    rw [heq] at h
    simp at h
  · intro hskip
    rw [genOrderCandidate_skip cfg cs ps oid r hcs hskip]
    rfl

/-! ## Loop lemmas -/

theorem genFor_zero {α : Type} (body : ℕ → Gen α) (start : ℕ) (r : Rand) :
    genFor body start 0 r = some ([], r) := rfl

theorem genFor_succ {α : Type} (body : ℕ → Gen α) (start n : ℕ) (r : Rand) :
    genFor body start (n + 1) r
      = (body start r).bind (fun a => (genFor body (start + 1) n a.2).bind
          (fun as => some (a.1 :: as.1, as.2))) := rfl

theorem genFor_length {α : Type} (body : ℕ → Gen α) : ∀ (n start : ℕ) (r : Rand)
    (as : List α) (r₂ : Rand), genFor body start n r = some (as, r₂) →
    as.length = n := by
  intro n
  induction n with
  | zero =>
    intro start r as r₂ h
    cases h
    rfl
  | succ n ih =>
    intro start r as r₂ h
    rw [genFor_succ] at h
    cases hh : body start r with
    | none => rw [hh] at h; cases h
    | some a =>
      obtain ⟨a0, rMid⟩ := a
      rw [hh] at h
      simp only [Option.some_bind] at h
      cases ht : genFor body (start + 1) n rMid with
      | none => rw [ht] at h; cases h
      | some asp =>
        obtain ⟨as', rEnd⟩ := asp
        rw [ht] at h
        simp only [Option.some_bind, Option.some.injEq, Prod.mk.injEq] at h
        obtain ⟨h1, _⟩ := h
        rw [← h1, List.length_cons, ih (start + 1) rMid as' rEnd ht]

theorem genFor_mem_idx {α : Type} {body : ℕ → Gen α} (hb : ∀ i, WF (body i)) :
    ∀ (n start : ℕ) (r : Rand) (as : List α) (r₂ : Rand),
    genFor body start n r = some (as, r₂) →
    ∀ (j : ℕ) (hj : j < as.length), ∃ r₀ r₁,
      body (start + j) r₀ = some (as.get ⟨j, hj⟩, r₁) ∧
      r₀.stream = r.stream ∧ r.pos ≤ r₀.pos := by
  intro n
  induction n with
  | zero =>
    intro start r as r₂ h
    cases h
    intro j hj
    cases hj
  | succ n ih =>
    intro start r as r₂ h
    rw [genFor_succ] at h
    cases hh : body start r with
    | none => rw [hh] at h; cases h
    | some a =>
      obtain ⟨a0, rMid⟩ := a
      rw [hh] at h
      simp only [Option.some_bind] at h
      cases ht : genFor body (start + 1) n rMid with
      | none => rw [ht] at h; cases h
      | some asp =>
        obtain ⟨as', rEnd⟩ := asp
        rw [ht] at h
        simp only [Option.some_bind, Option.some.injEq, Prod.mk.injEq] at h
        obtain ⟨h1, _⟩ := h
        subst h1
        intro j hj
        match j with
        | 0 => exact ⟨r, rMid, by simpa using hh, rfl, le_refl _⟩
        | j + 1 =>
          have hj' : j < as'.length := by
            simpa using hj
          obtain ⟨r₀, r₁, hbody, hs, hp⟩ := ih (start + 1) rMid as' rEnd ht j hj'
          obtain ⟨hsa, hpa⟩ := (hb start).1 r a0 rMid hh
          refine ⟨r₀, r₁, ?_, hs.trans hsa, le_trans hpa hp⟩
          have heq : start + 1 + j = start + (j + 1) := by omega
          rw [← heq]
          exact hbody

/-- The complete invariant of the candidate-order loop (lines 185-288):
order ids equal the candidate indices (strictly increasing, within range),
items are tagged with their order's id, at most one order per candidate,
and each emitted order's item rows are recovered by filtering the item
table on its order id. -/
theorem ordersLoop_spec (cfg : EcommerceDataGenerator) (cs : List Customer)
    (ps : List Product) : ∀ (n start : ℕ) (r : Rand)
    (results : List (Option (Order × List OrderItem))) (r₂ : Rand),
    genFor (genOrderCandidate cfg cs ps) start n r = some (results, r₂) →
    (∀ o ∈ (results.filterMap id).map Prod.fst,
      start ≤ o.order_id ∧ o.order_id < start + n) ∧
    (∀ it ∈ ((results.filterMap id).map Prod.snd).flatten,
      start ≤ it.order_id ∧ it.order_id < start + n) ∧
    List.Pairwise (· < ·)
      (((results.filterMap id).map Prod.fst).map Order.order_id) ∧
    ((results.filterMap id).map Prod.fst).length ≤ n ∧
    (∀ it ∈ ((results.filterMap id).map Prod.snd).flatten,
      ∃ o ∈ (results.filterMap id).map Prod.fst, it.order_id = o.order_id) ∧
    (∀ o ∈ (results.filterMap id).map Prod.fst,
      ∃ own r₀ r₁,
        genOrderCandidate cfg cs ps o.order_id r₀ = some (some (o, own), r₁) ∧
        ((((results.filterMap id).map Prod.snd).flatten).filter
          (fun it => it.order_id == o.order_id)) = own) := by
  intro n
  induction n with
  | zero =>
    intro start r results r₂ h
    cases h
    refine ⟨?_, ?_, ?_, ?_, ?_, ?_⟩ <;> simp
  | succ n ih =>
    intro start r results r₂ h
    rw [genFor_succ] at h
    cases hh : genOrderCandidate cfg cs ps start r with
    | none => rw [hh] at h; cases h
    | some a =>
      obtain ⟨res0, rMid⟩ := a
      rw [hh] at h
      simp only [Option.some_bind] at h
      cases ht : genFor (genOrderCandidate cfg cs ps) (start + 1) n rMid with
      | none => rw [ht] at h; cases h
      | some asp =>
        obtain ⟨results', rEnd⟩ := asp
        rw [ht] at h
        simp only [Option.some_bind, Option.some.injEq, Prod.mk.injEq] at h
        obtain ⟨h1, h2⟩ := h
        subst h1
        obtain ⟨ihA, ihB, ihC, ihD, ihF, ihE⟩ := ih (start + 1) rMid results' rEnd ht
        cases res0 with
        | none =>
          simp only [List.filterMap_cons, id_eq] at *
          refine ⟨?_, ?_, ihC, ihD.trans (Nat.le_succ n), ihF, ?_⟩
          · intro o ho
            obtain ⟨hle, hlt⟩ := ihA o ho
            omega
          · intro it hit
            obtain ⟨hle, hlt⟩ := ihB it hit
            omega
          · intro o ho
            obtain ⟨own, r₀, r₁, hrun, hfil⟩ := ihE o ho
            exact ⟨own, r₀, r₁, hrun, hfil⟩
        | some ow =>
          obtain ⟨o₀, own₀⟩ := ow
          obtain ⟨hoid, hitsid, -, -, -⟩ :=
            cand_emit_spec cfg cs ps start r o₀ own₀ rMid hh
          simp only [List.filterMap_cons, id_eq, List.map_cons, List.flatten_cons]
          have htailo : ∀ o ∈ (results'.filterMap id).map Prod.fst,
              start + 1 ≤ o.order_id ∧ o.order_id < start + 1 + n := ihA
          have htaili : ∀ it ∈ ((results'.filterMap id).map Prod.snd).flatten,
              start + 1 ≤ it.order_id ∧ it.order_id < start + 1 + n := ihB
          refine ⟨?_, ?_, ?_, ?_, ?_, ?_⟩
          · intro o ho
            rcases List.mem_cons.mp ho with rfl | ho'
            · omega
            · obtain ⟨hle, hlt⟩ := htailo o ho'
              omega
          · intro it hit
            rcases List.mem_append.mp hit with hit' | hit'
            · have := hitsid it hit'
              omega
            · obtain ⟨hle, hlt⟩ := htaili it hit'
              omega
          · refine List.Pairwise.cons ?_ ihC
            intro b hb
            obtain ⟨o', ho', hb'⟩ := List.mem_map.mp hb
            obtain ⟨hle, -⟩ := htailo o' ho'
            omega
          · simpa using Nat.succ_le_succ ihD
          · intro it hit
            rcases List.mem_append.mp hit with hit' | hit'
            · exact ⟨o₀, List.mem_cons_self _ _, by rw [hitsid it hit', hoid]⟩
            · obtain ⟨o, ho, he⟩ := ihF it hit'
              exact ⟨o, List.mem_cons_of_mem _ ho, he⟩
          · intro o ho
            rcases List.mem_cons.mp ho with rfl | ho'
            · refine ⟨own₀, r, rMid, ?_, ?_⟩
              · rw [hoid]
                exact hh
              · rw [List.filter_append]
                have hfself : own₀.filter (fun it => it.order_id == o.order_id) = own₀ := by
                  rw [List.filter_eq_self]
                  intro it hit
                  have h1 := hitsid it hit
                  simp [h1, hoid]
                have hfnil : (((results'.filterMap id).map Prod.snd).flatten).filter
                    (fun it => it.order_id == o.order_id) = [] := by
                  rw [List.filter_eq_nil_iff]
                  intro it hit
                  obtain ⟨hle, -⟩ := htaili it hit
                  simp only [beq_iff_eq]
                  omega
                rw [hfself, hfnil, List.append_nil]
            · obtain ⟨own, r₀, r₁, hrun, hfil⟩ := ihE o ho'
              refine ⟨own, r₀, r₁, hrun, ?_⟩
              rw [List.filter_append]
              have hfnil : own₀.filter (fun it => it.order_id == o.order_id) = [] := by
                rw [List.filter_eq_nil_iff]
                intro it hit
                have h1 := hitsid it hit
                obtain ⟨hle, -⟩ := htailo o ho'
                simp only [beq_iff_eq]
                omega
              rw [hfnil, hfil, List.nil_append]

/-- Unindexed membership for loop outputs. -/
theorem genFor_mem {α : Type} {body : ℕ → Gen α} (hb : ∀ i, WF (body i))
    (n start : ℕ) (r : Rand) (as : List α) (r₂ : Rand)
    (h : genFor body start n r = some (as, r₂)) :
    ∀ a ∈ as, ∃ i r₀ r₁, start ≤ i ∧ i < start + n ∧ body i r₀ = some (a, r₁) ∧
      r₀.stream = r.stream ∧ r.pos ≤ r₀.pos := by
  intro a ha
  obtain ⟨j, hget⟩ := List.mem_iff_get.mp ha
  obtain ⟨r₀, r₁, hbody, hs, hp⟩ := genFor_mem_idx hb n start r as r₂ h j.1 j.2
  refine ⟨start + j.1, r₀, r₁, Nat.le_add_right _ _, ?_, ?_, hs, hp⟩
  · have hlen := genFor_length body n start r as r₂ h
    have := j.2
    omega
  · rw [show (⟨j.1, j.2⟩ : Fin as.length) = j from rfl, hget] at hbody
    exact hbody

/-- The stage guard shared by customers, products and sessions: the summary
print raises on an empty frame. -/
theorem stageGuard_spec {α : Type} (g : Gen (List α)) (r : Rand) (xs : List α)
    (r₂ : Rand)
    (h : (g >>= fun ys => if ys.isEmpty then Gen.fail else Pure.pure ys) r
      = some (xs, r₂)) :
    g r = some (xs, r₂) ∧ xs ≠ [] := by
  rw [run_bind] at h
  cases hg : g r with
  | none => rw [hg] at h; cases h
  | some p =>
    obtain ⟨ys, rG⟩ := p
    rw [hg] at h
    simp only [Option.some_bind] at h
    cases hemp : ys.isEmpty with
    | true => rw [hemp] at h; simp [Gen.fail] at h
    | false =>
      rw [hemp] at h
      simp only [Bool.false_eq_true, if_false, run_pure, Option.some.injEq,
        Prod.mk.injEq] at h
      obtain ⟨h1, h2⟩ := h
      subst h1
      subst h2
      refine ⟨rfl, ?_⟩
      intro hnil
      rw [hnil] at hemp
      cases hemp

theorem generate_customers_run (cfg : EcommerceDataGenerator) (r : Rand)
    (cs : List Customer) (r₂ : Rand)
    (h : generate_customers cfg r = some (cs, r₂)) :
    genFor (genCustomer cfg) 0 cfg.num_customers r = some (cs, r₂) ∧ cs ≠ [] := by
  unfold generate_customers at h
  exact stageGuard_spec _ r cs r₂ h

theorem generate_products_run (cfg : EcommerceDataGenerator) (r : Rand)
    (ps : List Product) (r₂ : Rand)
    (h : generate_products cfg r = some (ps, r₂)) :
    genFor (genProduct cfg) 0 cfg.num_products r = some (ps, r₂) ∧ ps ≠ [] := by
  unfold generate_products at h
  exact stageGuard_spec _ r ps r₂ h

theorem generate_web_analytics_run (cs : List Customer) (os : List Order)
    (r : Rand) (ss : List Session) (r₂ : Rand)
    (h : generate_web_analytics cs os r = some (ss, r₂)) :
    genFor (genSession cs os) 1 (os.length * 5) r = some (ss, r₂) ∧ ss ≠ [] := by
  unfold generate_web_analytics at h
  exact stageGuard_spec _ r ss r₂ h

theorem generate_orders_run (cfg : EcommerceDataGenerator) (cs : List Customer)
    (ps : List Product) (r : Rand) (os : List Order) (its : List OrderItem)
    (r₂ : Rand)
    (h : generate_orders cfg cs ps r = some ((os, its), r₂)) :
    ∃ results,
      genFor (genOrderCandidate cfg cs ps) 1 cfg.num_orders r = some (results, r₂) ∧
      os = (results.filterMap id).map Prod.fst ∧
      its = ((results.filterMap id).map Prod.snd).flatten ∧
      os ≠ [] := by
  unfold generate_orders at h
  rw [run_bind] at h
  cases hres : genFor (genOrderCandidate cfg cs ps) 1 cfg.num_orders r with
  | none => rw [hres] at h; cases h
  | some p =>
    obtain ⟨results, rG⟩ := p
    rw [hres] at h
    simp only [Option.some_bind] at h
    cases hemp : ((results.filterMap id).map Prod.fst).isEmpty with
    | true =>
      rw [hemp] at h
      simp [Gen.fail] at h
    | false =>
      rw [hemp] at h
      simp only [Bool.false_eq_true, if_false, run_pure, Option.some.injEq,
        Prod.mk.injEq] at h
      obtain ⟨⟨h1, h2⟩, h3⟩ := h
      subst h3
      refine ⟨results, rfl, h1.symm, h2.symm, ?_⟩
      intro hnil
      rw [h1, hnil] at hemp
      simp at hemp

/-- The run equation of one product (lines 110-146): 13 draws, with
`price` and `cost` derived from the category, base-price and margin draws. -/
theorem genProduct_run (cfg : EcommerceDataGenerator) (i : ℕ) (r : Rand) :
    genProduct cfg i r = some
      ({ product_id := i + 1,
         category := pickIdx (r.stream r.pos) 8,
         price := round2 (rawPrice (pickIdx (r.stream r.pos) 8) (r.stream (r.pos + 1))),
         cost := round2 (rawCost (pickIdx (r.stream r.pos) 8) (r.stream (r.pos + 1))
           (r.stream (r.pos + 1 + 1))),
         weight_kg := round2 (r.stream (r.pos + 1 + 1 + 1 + 1 + 1 + 1 + 1)),
         is_active :=
           decide (r.stream (r.pos + 1 + 1 + 1 + 1 + 1 + 1 + 1 + 1 + 1 + 1 + 1 + 1)
             < 9/10) },
       ⟨r.stream, r.pos + 1 + 1 + 1 + 1 + 1 + 1 + 1 + 1 + 1 + 1 + 1 + 1 + 1⟩) := rfl

/-- The run equation of one web session (lines 306-353), split on the
customer-attachment branch. -/
theorem genSession_run (cs : List Customer) (os : List Order) (sid : ℕ) (r : Rand)
    (s : Session) (r₂ : Rand) (h : genSession cs os sid r = some (s, r₂)) :
    s.session_id = sid ∧ s.converted = decide (sid ≤ os.length) ∧
    s.revenue = (if sid ≤ os.length
      then ((os.get? (sid - 1)).map Order.total_amount).getD 0 else 0) := by
  unfold genSession at h
  by_cases h60 : r.stream r.pos < 3/5
  · cases hcse : cs.isEmpty with
    | true =>
      simp only [sessionMaybeCustomer, sessionCustomer, randFloat, nextQ, run_bind,
        run_pure, Option.some_bind, h60, if_true, hcse, Gen.fail] at h
      cases h
    | false =>
      simp only [sessionMaybeCustomer, sessionCustomer, randFloat, expDraw, nextQ,
        choiceIdx, poissonDraw, run_bind, run_pure, Option.some_bind, h60, if_true,
        hcse, Bool.false_eq_true, if_false, Option.some.injEq, Prod.mk.injEq] at h
      obtain ⟨h1, -⟩ := h
      subst h1
      exact ⟨rfl, rfl, rfl⟩
  · simp only [sessionMaybeCustomer, sessionCustomer, randFloat, expDraw, nextQ,
      choiceIdx, poissonDraw, run_bind, run_pure, Option.some_bind, h60, if_false,
      Option.some.injEq, Prod.mk.injEq] at h
    obtain ⟨h1, -⟩ := h
    subst h1
    exact ⟨rfl, rfl, rfl⟩

/-- Master specification of `generate_orders` (lines 152-295), combining
the loop invariant with the per-candidate properties. -/
theorem generate_orders_spec (cfg : EcommerceDataGenerator) (cs : List Customer)
    (ps : List Product) (r : Rand) (os : List Order) (its : List OrderItem)
    (r₂ : Rand)
    (h : generate_orders cfg cs ps r = some ((os, its), r₂)) :
    (∀ o ∈ os, 1 ≤ o.order_id ∧ o.order_id ≤ cfg.num_orders) ∧
    List.Pairwise (· < ·) (os.map Order.order_id) ∧
    os.length ≤ cfg.num_orders ∧
    (∀ it ∈ its, ∃ o ∈ os, it.order_id = o.order_id) ∧
    (∀ o ∈ os, ∃ c ∈ cs, o.customer_id = c.customer_id) ∧
    (∀ it ∈ its, ∃ p ∈ ps, it.product_id = p.product_id) ∧
    (∀ o ∈ os,
      |((its.filter (fun it => it.order_id == o.order_id)).map
            OrderItem.total_price).sum
          - (o.total_amount - o.tax_amount - o.shipping_cost + o.discount_amount)|
        ≤ ((its.filter (fun it => it.order_id == o.order_id)).length : ℚ) * (1/200)
            + 1/50) := by
  obtain ⟨results, hres, hos, hits, -⟩ :=
    generate_orders_run cfg cs ps r os its r₂ h
  obtain ⟨lA, lB, lC, lD, lF, lE⟩ := ordersLoop_spec cfg cs ps cfg.num_orders 1 r results r₂ hres
  subst hos
  subst hits
  refine ⟨?_, lC, lD, lF, ?_, ?_, ?_⟩
  · intro o ho
    obtain ⟨h1, h2⟩ := lA o ho
    omega
  · intro o ho
    obtain ⟨own, r₀, r₁, hrun, -⟩ := lE o ho
    obtain ⟨-, -, hcust, -, -⟩ :=
      cand_emit_spec cfg cs ps o.order_id r₀ o own r₁ hrun
    exact hcust
  · intro it hit
    obtain ⟨o, ho, hid⟩ := lF it hit
    obtain ⟨own, r₀, r₁, hrun, hfil⟩ := lE o ho
    obtain ⟨-, -, -, hpmem, -⟩ :=
      cand_emit_spec cfg cs ps o.order_id r₀ o own r₁ hrun
    have hin : it ∈ own := by
      rw [← hfil]
      exact List.mem_filter.mpr ⟨hit, by simp [hid]⟩
    exact hpmem it hin
  · intro o ho
    obtain ⟨own, r₀, r₁, hrun, hfil⟩ := lE o ho
    obtain ⟨-, -, -, -, hbound⟩ :=
      cand_emit_spec cfg cs ps o.order_id r₀ o own r₁ hrun
    rw [hfil]
    have h450 : (4 : ℚ) * (1/200) = 1/50 := by norm_num
    rw [← h450]
    exact hbound

theorem categoryMult_pos (i : ℕ) : 0 < categoryMult i := by
  unfold categoryMult
  rw [List.getD_eq_getElem?_getD]
  cases h : [(3 : ℚ), 1, 9/5, 2/5, 3/2, 6/5, 4/5, 5/2][i]? with
  | none => norm_num
  | some x =>
    have hx : x ∈ [(3 : ℚ), 1, 9/5, 2/5, 3/2, 6/5, 4/5, 5/2] :=
      List.getElem?_mem h
    have hall : ∀ y ∈ [(3 : ℚ), 1, 9/5, 2/5, 3/2, 6/5, 4/5, 5/2], 0 < y := by
      decide!
    simpa using hall x hx

/-! ## The claims -/

/-- C1: for every emitted order, the monetary fields are computed in the
fixed sequence after its order items are generated: the pre-discount
subtotal is the sum of the (unrounded) item totals; then
`discount_amount = subtotal * discount_rate` where the rate is the
`Uniform(0.05, 0.15)` draw (`1/20 + (3/20 - 1/20) * u`) if
`subtotal > 200`, else the `Uniform(0.10, 0.25)` draw with probability
`0.1`, else `0`; then `tax_amount = (subtotal - discount_amount) * 0.08`;
then `total_amount = subtotal - discount_amount + tax_amount +
shipping_cost`.  Each stored field is the two-decimal rounding of its
value in this sequence. -/
theorem claim_C1_money_fields_sequence :
    ∀ (cfg : EcommerceDataGenerator) (cs : List Customer) (ps : List Product)
      (oid : ℕ) (r : Rand) (o : Order) (its : List OrderItem) (r₂ : Rand),
    genOrderCandidate cfg cs ps oid r = some (some (o, its), r₂) →
    ∃ pre r₁ sel r₀,
      candSetup cfg cs ps oid r = some (some pre, r₁) ∧
      its = pre.items ∧
      genItems oid sel r₀ = some ((pre.items, pre.order_total), r₁) ∧
      pre.order_total = (rawItemTotals sel r₀.stream r₀.pos).sum ∧
      pre.items.map OrderItem.total_price
        = (rawItemTotals sel r₀.stream r₀.pos).map round2 ∧
      o.discount_amount
        = round2 (pre.order_total * discRateVal pre.order_total r₁.stream r₁.pos) ∧
      o.tax_amount
        = round2 ((pre.order_total
            - pre.order_total * discRateVal pre.order_total r₁.stream r₁.pos)
          * (2/25)) ∧
      o.total_amount
        = round2 ((pre.order_total
            - pre.order_total * discRateVal pre.order_total r₁.stream r₁.pos)
          + (pre.order_total
            - pre.order_total * discRateVal pre.order_total r₁.stream r₁.pos)
            * (2/25)
          + pre.ship_raw) ∧
      o.shipping_cost = round2 pre.ship_raw ∧
      (200 < pre.order_total →
        discRateVal pre.order_total r₁.stream r₁.pos
          = 1/20 + (3/20 - 1/20) * r₁.stream r₁.pos) ∧
      (¬ 200 < pre.order_total → r₁.stream r₁.pos < 1/10 →
        discRateVal pre.order_total r₁.stream r₁.pos
          = 1/10 + (1/4 - 1/10) * r₁.stream (r₁.pos + 1)) ∧
      (¬ 200 < pre.order_total → ¬ r₁.stream r₁.pos < 1/10 →
        discRateVal pre.order_total r₁.stream r₁.pos = 0) := by
  intro cfg cs ps oid r o its r₂ h
  obtain ⟨pre, r₁, hset, ho, hits⟩ := cand_emit_run cfg cs ps oid r o its r₂ h
  obtain ⟨-, sel, r₀, -, hgi, hitems, htot⟩ :=
    candSetup_spec cfg cs ps oid r pre r₁ hset
  subst ho
  subst hits
  refine ⟨pre, r₁, sel, r₀, hset, rfl, hgi, htot, ?_, rfl, rfl, rfl, rfl, ?_, ?_, ?_⟩
  · rw [hitems]
    exact itemsAt_totals oid sel r₀.stream r₀.pos
  · intro hgt
    unfold discRateVal
    rw [if_pos hgt]
  · intro hgt hlt
    unfold discRateVal
    rw [if_neg hgt, if_pos hlt]
  · intro hgt hlt
    unfold discRateVal
    rw [if_neg hgt, if_neg hlt]

/-- Witness for C1 at the concrete one-candidate fixture. -/
theorem claim_C1_witness :
    ∃ pre r₁ sel r₀,
      candSetup cfgF csF psF 1 rF = some (some pre, r₁) ∧
      itsF = pre.items ∧
      genItems 1 sel r₀ = some ((pre.items, pre.order_total), r₁) ∧
      pre.order_total = (rawItemTotals sel r₀.stream r₀.pos).sum ∧
      pre.items.map OrderItem.total_price
        = (rawItemTotals sel r₀.stream r₀.pos).map round2 ∧
      oF.discount_amount
        = round2 (pre.order_total * discRateVal pre.order_total r₁.stream r₁.pos) ∧
      oF.tax_amount
        = round2 ((pre.order_total
            - pre.order_total * discRateVal pre.order_total r₁.stream r₁.pos)
          * (2/25)) ∧
      oF.total_amount
        = round2 ((pre.order_total
            - pre.order_total * discRateVal pre.order_total r₁.stream r₁.pos)
          + (pre.order_total
            - pre.order_total * discRateVal pre.order_total r₁.stream r₁.pos)
            * (2/25)
          + pre.ship_raw) ∧
      oF.shipping_cost = round2 pre.ship_raw ∧
      (200 < pre.order_total →
        discRateVal pre.order_total r₁.stream r₁.pos
          = 1/20 + (3/20 - 1/20) * r₁.stream r₁.pos) ∧
      (¬ 200 < pre.order_total → r₁.stream r₁.pos < 1/10 →
        discRateVal pre.order_total r₁.stream r₁.pos
          = 1/10 + (1/4 - 1/10) * r₁.stream (r₁.pos + 1)) ∧
      (¬ 200 < pre.order_total → ¬ r₁.stream r₁.pos < 1/10 →
        discRateVal pre.order_total r₁.stream r₁.pos = 0) := by
  have hMap : (genOrderCandidate cfgF csF psF 1 rF).map Prod.fst
      = some (some (oF, itsF)) := by decide!
  obtain ⟨r₂, hE⟩ := ofMapFst hMap
  exact claim_C1_money_fields_sequence cfgF csF psF 1 rF oF itsF r₂ hE

/-- C2 counterexample: in the concrete run `generate_orders cfgF csF psF rF`
the stored item totals sum to `1.00` while the reconstruction
`total_amount - tax_amount - shipping_cost + discount_amount` of the
pre-discount subtotal gives `1.01` (each raw item total is `0.504`), so the
claimed `1e-6` tolerance fails. -/
theorem claim_C2_counterexample :
    ∃ os its r₂ o,
      generate_orders cfgF csF psF rF = some ((os, its), r₂) ∧ o ∈ os ∧
      ¬ (|((its.filter (fun it => it.order_id == o.order_id)).map
              OrderItem.total_price).sum
            - (o.total_amount - o.tax_amount - o.shipping_cost + o.discount_amount)|
          ≤ 1/1000000) := by
  have hMap : (generate_orders cfgF csF psF rF).map Prod.fst
      = some ([oF], itsF) := by decide!
  obtain ⟨r₂, hE⟩ := ofMapFst hMap
  refine ⟨[oF], itsF, r₂, oF, hE, List.mem_cons_self _ _, ?_⟩
  decide!

/-- C2 amended: the sum of the stored `total_price` values of an order's
item rows differs from the stored reconstruction
`total_amount - tax_amount - shipping_cost + discount_amount` of the
pre-discount subtotal by at most `0.005` per item row plus `0.02` for the
four rounded order fields (instead of the claimed `1e-6`). -/
theorem claim_C2_amended_reconciliation :
    ∀ (cfg : EcommerceDataGenerator) (cs : List Customer) (ps : List Product)
      (r : Rand) (os : List Order) (its : List OrderItem) (r₂ : Rand),
    generate_orders cfg cs ps r = some ((os, its), r₂) →
    ∀ o ∈ os,
      |((its.filter (fun it => it.order_id == o.order_id)).map
            OrderItem.total_price).sum
          - (o.total_amount - o.tax_amount - o.shipping_cost + o.discount_amount)|
        ≤ ((its.filter (fun it => it.order_id == o.order_id)).length : ℚ) * (1/200)
            + 1/50 := by
  intro cfg cs ps r os its r₂ h
  exact (generate_orders_spec cfg cs ps r os its r₂ h).2.2.2.2.2.2

/-- Witness for the amended C2 at the concrete fixture. -/
theorem claim_C2_witness :
    ∃ os its r₂,
      generate_orders cfgF csF psF rF = some ((os, its), r₂) ∧
      ∀ o ∈ os,
        |((its.filter (fun it => it.order_id == o.order_id)).map
              OrderItem.total_price).sum
            - (o.total_amount - o.tax_amount - o.shipping_cost + o.discount_amount)|
          ≤ ((its.filter (fun it => it.order_id == o.order_id)).length : ℚ) * (1/200)
              + 1/50 := by
  have hS : (generate_orders cfgF csF psF rF).isSome = true := by decide!
  obtain ⟨⟨⟨os, its⟩, r₂⟩, hE⟩ := Option.isSome_iff_exists.mp hS
  exact ⟨os, its, r₂, hE,
    claim_C2_amended_reconciliation cfgF csF psF rF os its r₂ hE⟩

/-- C3 counterexample: the product generated by
`generate_products cfgF3 rF3` has its margin draw `0.05` clipped at the
floor `0.10` and raw price `0.01`, and after two-decimal rounding its
stored cost `0.01` equals the stored price and exceeds
`0.9 * price = 0.009`, so neither `cost < price` nor the floor-case bound
`cost ≤ 0.90 * price` holds for the stored fields. -/
theorem claim_C3_counterexample :
    ∃ ps r₂,
      generate_products cfgF3 rF3 = some (ps, r₂) ∧
      clampMargin (rF3.stream 2) = 1/10 ∧
      ∃ p ∈ ps, ¬ p.cost < p.price ∧ ¬ p.cost ≤ (9/10) * p.price := by
  have hMap : (generate_products cfgF3 rF3).map Prod.fst = some [pF3] := by decide!
  obtain ⟨r₂, hE⟩ := ofMapFst hMap
  refine ⟨[pF3], r₂, hE, by decide!, pF3, List.mem_cons_self _ _, by decide!, by decide!⟩

/-- C3 amended: for the stored (two-decimal rounded) fields only
`cost ≤ price` holds, with equality possible when rounding collapses the
margin; before rounding the source computation satisfies the claim:
`cost < price` strictly and `cost ≤ 0.9 * price` (the floor case),
whenever the log-normal base-price draw is positive. -/
theorem claim_C3_amended_cost_le_price :
    (∀ (cfg : EcommerceDataGenerator) (r : Rand) (ps : List Product) (r₂ : Rand),
      generate_products cfg r = some (ps, r₂) →
      (∀ k, r.pos ≤ k → 0 < r.stream k) →
      ∀ p ∈ ps, p.cost ≤ p.price) ∧
    (∀ (cat : ℕ) (base m : ℚ), 0 < base →
      rawCost cat base m < rawPrice cat base ∧
      rawCost cat base m ≤ (9/10) * rawPrice cat base) := by
  constructor
  · intro cfg r ps r₂ h hpos p hp
    obtain ⟨hloop, -⟩ := generate_products_run cfg r ps r₂ h
    obtain ⟨i, r₀, r₁, -, -, hbody, hs, hcur⟩ :=
      genFor_mem (fun i => wf_genProduct cfg i) cfg.num_products 0 r ps r₂ hloop p hp
    rw [genProduct_run cfg i r₀] at hbody
    have hpfields : p.cost = round2 (rawCost (pickIdx (r₀.stream r₀.pos) 8)
          (r₀.stream (r₀.pos + 1)) (r₀.stream (r₀.pos + 1 + 1)))
        ∧ p.price = round2 (rawPrice (pickIdx (r₀.stream r₀.pos) 8)
          (r₀.stream (r₀.pos + 1))) := by
      have := (Option.some.injEq _ _).mp hbody
      obtain ⟨h1, -⟩ := Prod.mk.injEq .. ▸ this
      rw [← h1]
      exact ⟨rfl, rfl⟩
    have hbase : 0 < r₀.stream (r₀.pos + 1) := by
      rw [hs]
      exact hpos (r₀.pos + 1) (by omega)
    obtain ⟨h1, h2⟩ := hpfields
    rw [h1, h2]
    apply round2_mono
    have hmult : 0 < categoryMult (pickIdx (r₀.stream r₀.pos) 8) := categoryMult_pos _
    have hprice : 0 < rawPrice (pickIdx (r₀.stream r₀.pos) 8) (r₀.stream (r₀.pos + 1)) := by
      unfold rawPrice
      positivity
    have hclamp : 1/10 ≤ clampMargin (r₀.stream (r₀.pos + 1 + 1)) := le_max_left _ _
    unfold rawCost
    nlinarith
  · intro cat base m hbase
    have hmult : 0 < categoryMult cat := categoryMult_pos cat
    have hprice : 0 < rawPrice cat base := by
      unfold rawPrice
      positivity
    have hclamp1 : 1/10 ≤ clampMargin m := le_max_left _ _
    constructor
    · unfold rawCost
      nlinarith
    · unfold rawCost
      nlinarith

/-- Witness for the amended C3 at the concrete fixture. -/
theorem claim_C3_witness :
    (∃ ps r₂,
      generate_products cfgF3 rF3 = some (ps, r₂) ∧
      (∀ k, rF3.pos ≤ k → 0 < rF3.stream k) ∧
      ∀ p ∈ ps, p.cost ≤ p.price) ∧
    (0 < (1 : ℚ) ∧ rawCost 0 1 (2/5) < rawPrice 0 1 ∧
      rawCost 0 1 (2/5) ≤ (9/10) * rawPrice 0 1) := by
  have hpos : ∀ k, rF3.pos ≤ k → 0 < rF3.stream k := by
    intro k _
    show 0 < streamF3 k
    unfold streamF3
    split_ifs <;> norm_num
  constructor
  · have hS : (generate_products cfgF3 rF3).isSome = true := by decide!
    obtain ⟨⟨ps, r₂⟩, hE⟩ := Option.isSome_iff_exists.mp hS
    exact ⟨ps, r₂, hE, hpos,
      claim_C3_amended_cost_le_price.1 cfgF3 rF3 ps r₂ hE hpos⟩
  · exact ⟨by norm_num, claim_C3_amended_cost_le_price.2 0 1 (2/5) (by norm_num)⟩

/-- C4: a candidate is discarded exactly when the uniform draw `u` exceeds
`w / 1.5`, `w` being the seasonality weight of the candidate date's month;
a discarded candidate emits no order row and no order-item rows (every item
row belongs to an emitted order), and the number of emitted orders is at
most the requested `num_orders`. -/
theorem claim_C4_seasonality_skip :
    (∀ (cfg : EcommerceDataGenerator) (cs : List Customer) (ps : List Product)
        (oid : ℕ) (r : Rand), cs.isEmpty = false →
      ((genOrderCandidate cfg cs ps oid r).map Prod.fst = some none ↔
        monthWeight (cfg.month_of (candDaysBack cfg r)) / (3/2) < candSeasonU r)) ∧
    (∀ (cfg : EcommerceDataGenerator) (cs : List Customer) (ps : List Product)
        (r : Rand) (os : List Order) (its : List OrderItem) (r₂ : Rand),
      generate_orders cfg cs ps r = some ((os, its), r₂) →
      os.length ≤ cfg.num_orders ∧
      ∀ it ∈ its, ∃ o ∈ os, it.order_id = o.order_id) := by
  constructor
  · intro cfg cs ps oid r hcs
    exact genOrderCandidate_skip_iff cfg cs ps oid r hcs
  · intro cfg cs ps r os its r₂ h
    obtain ⟨-, -, hlen, hitems, -, -, -⟩ := generate_orders_spec cfg cs ps r os its r₂ h
    exact ⟨hlen, hitems⟩

/-- Witness for C4: candidate 1 of `rF2` is discarded (`0.9 > 0.7/1.5`),
and the one-candidate run emits at most one order with no orphan items. -/
theorem claim_C4_witness :
    ((genOrderCandidate cfgF2 csF psF 1 rF2).map Prod.fst = some none ↔
      monthWeight (cfgF2.month_of (candDaysBack cfgF2 rF2)) / (3/2)
        < candSeasonU rF2) ∧
    ∃ os its r₂,
      generate_orders cfgF csF psF rF = some ((os, its), r₂) ∧
      os.length ≤ cfgF.num_orders ∧
      ∀ it ∈ its, ∃ o ∈ os, it.order_id = o.order_id := by
  constructor
  · exact claim_C4_seasonality_skip.1 cfgF2 csF psF 1 rF2 (by decide)
  · have hS : (generate_orders cfgF csF psF rF).isSome = true := by decide!
    obtain ⟨⟨⟨os, its⟩, r₂⟩, hE⟩ := Option.isSome_iff_exists.mp hS
    exact ⟨os, its, r₂, hE, claim_C4_seasonality_skip.2 cfgF csF psF rF os its r₂ hE⟩

/-- C5: referential integrity of the generated tables — every emitted
order's `customer_id` is the id of a row of the customers table given to
`generate_orders`, and every emitted order item's `product_id` is the id
of a row of the products table. -/
theorem claim_C5_referential_integrity :
    ∀ (cfg : EcommerceDataGenerator) (cs : List Customer) (ps : List Product)
      (r : Rand) (os : List Order) (its : List OrderItem) (r₂ : Rand),
    generate_orders cfg cs ps r = some ((os, its), r₂) →
    (∀ o ∈ os, ∃ c ∈ cs, o.customer_id = c.customer_id) ∧
    (∀ it ∈ its, ∃ p ∈ ps, it.product_id = p.product_id) := by
  intro cfg cs ps r os its r₂ h
  obtain ⟨-, -, -, -, hcust, hprod, -⟩ := generate_orders_spec cfg cs ps r os its r₂ h
  exact ⟨hcust, hprod⟩

/-- Witness for C5 at the concrete fixture. -/
theorem claim_C5_witness :
    ∃ os its r₂,
      generate_orders cfgF csF psF rF = some ((os, its), r₂) ∧
      (∀ o ∈ os, ∃ c ∈ csF, o.customer_id = c.customer_id) ∧
      (∀ it ∈ its, ∃ p ∈ psF, it.product_id = p.product_id) := by
  have hS : (generate_orders cfgF csF psF rF).isSome = true := by decide!
  obtain ⟨⟨⟨os, its⟩, r₂⟩, hE⟩ := Option.isSome_iff_exists.mp hS
  exact ⟨os, its, r₂, hE, claim_C5_referential_integrity cfgF csF psF rF os its r₂ hE⟩

/-- C10 (implicit): emitted order ids are strictly increasing in emission
order (hence pairwise distinct) and lie in `1..num_orders`, but they are
not necessarily contiguous: in the concrete two-candidate run `rF2` the
only emitted order has id `2`, exceeding the emitted count `1`. -/
theorem claim_C10_order_ids :
    (∀ (cfg : EcommerceDataGenerator) (cs : List Customer) (ps : List Product)
        (r : Rand) (os : List Order) (its : List OrderItem) (r₂ : Rand),
      generate_orders cfg cs ps r = some ((os, its), r₂) →
      List.Pairwise (· < ·) (os.map Order.order_id) ∧
      ∀ o ∈ os, 1 ≤ o.order_id ∧ o.order_id ≤ cfg.num_orders) ∧
    (∃ os its r₂,
      generate_orders cfgF2 csF psF rF2 = some ((os, its), r₂) ∧
      os.map Order.order_id = [2] ∧ os.length = 1) := by
  constructor
  · intro cfg cs ps r os its r₂ h
    obtain ⟨hbounds, hsorted, -, -, -, -, -⟩ :=
      generate_orders_spec cfg cs ps r os its r₂ h
    exact ⟨hsorted, hbounds⟩
  · have hS : (generate_orders cfgF2 csF psF rF2).isSome = true := by decide!
    obtain ⟨⟨⟨os, its⟩, r₂⟩, hE⟩ := Option.isSome_iff_exists.mp hS
    have hproj : (generate_orders cfgF2 csF psF rF2).map
        (fun x => x.1.1.map Order.order_id) = some [2] := by decide!
    rw [hE] at hproj
    simp only [Option.map_some', Option.some.injEq] at hproj
    refine ⟨os, its, r₂, hE, hproj, ?_⟩
    have := congrArg List.length hproj
    simpa using this

/-- Witness for C10's universally quantified part at the fixture. -/
theorem claim_C10_witness :
    ∃ os its r₂,
      generate_orders cfgF csF psF rF = some ((os, its), r₂) ∧
      List.Pairwise (· < ·) (os.map Order.order_id) ∧
      ∀ o ∈ os, 1 ≤ o.order_id ∧ o.order_id ≤ cfgF.num_orders := by
  have hS : (generate_orders cfgF csF psF rF).isSome = true := by decide!
  obtain ⟨⟨⟨os, its⟩, r₂⟩, hE⟩ := Option.isSome_iff_exists.mp hS
  exact ⟨os, its, r₂, hE, claim_C10_order_ids.1 cfgF csF psF rF os its r₂ hE⟩

/-- C6 counterexample: in the full-pipeline run `generate_all_data cfgF6 rF6`
the single order's `total_amount` is `0` (its product's price rounds to
`0.00` and shipping is free), so the first web session is converted with
`revenue = 0`, refuting `converted → revenue > 0`. -/
theorem claim_C6_counterexample :
    ∃ t r₂ s,
      generate_all_data cfgF6 rF6 = some (t, r₂) ∧
      s ∈ t.web_sessions ∧ s.converted = true ∧ s.revenue = 0 := by
  have hS : (generate_all_data cfgF6 rF6).isSome = true := by decide!
  obtain ⟨⟨t, r₂⟩, hE⟩ := Option.isSome_iff_exists.mp hS
  have hproj : (generate_all_data cfgF6 rF6).map
      (fun x => x.1.web_sessions.map (fun s => (s.converted, s.revenue)))
      = some [(true, 0), (false, 0), (false, 0), (false, 0), (false, 0)] := by decide!
  rw [hE] at hproj
  simp only [Option.map_some', Option.some.injEq] at hproj
  match hws : t.web_sessions, hproj with
  | s :: rest, hproj =>
    rw [List.map_cons] at hproj
    have h1 : (s.converted, s.revenue) = (true, (0 : ℚ)) :=
      (List.cons.injEq .. ▸ hproj).1
    refine ⟨t, r₂, s, hE, ?_, ?_, ?_⟩
    · rw [hws]
      exact List.mem_cons_self _ _
    · exact (Prod.mk.injEq .. ▸ h1).1
    · exact (Prod.mk.injEq .. ▸ h1).2

/-- C6 amended: `converted` is positional — true exactly when the session
index is at most the number of emitted orders; a non-converted session has
`revenue = 0`, and a converted session's `revenue` equals the
`total_amount` of the order at that positional index, which is not
guaranteed to be positive. -/
theorem claim_C6_amended_conversion :
    ∀ (cs : List Customer) (os : List Order) (r : Rand) (ss : List Session)
      (r₂ : Rand),
    generate_web_analytics cs os r = some (ss, r₂) →
    ∀ s ∈ ss,
      s.converted = decide (s.session_id ≤ os.length) ∧
      (s.converted = false → s.revenue = 0) ∧
      (s.converted = true →
        ∃ o, os.get? (s.session_id - 1) = some o ∧ s.revenue = o.total_amount) := by
  intro cs os r ss r₂ h s hs
  obtain ⟨hloop, -⟩ := generate_web_analytics_run cs os r ss r₂ h
  obtain ⟨i, r₀, r₁, hge, -, hbody, -, -⟩ :=
    genFor_mem (fun i => wf_genSession cs os i) (os.length * 5) 1 r ss r₂ hloop s hs
  obtain ⟨hsid, hconv, hrev⟩ := genSession_run cs os i r₀ s r₁ hbody
  subst hsid
  refine ⟨hconv, ?_, ?_⟩
  · intro hfalse
    have hnot : ¬ s.session_id ≤ os.length := by
      intro hle
      rw [hconv] at hfalse
      simp [hle] at hfalse
    rw [hrev, if_neg hnot]
  · intro htrue
    have hle : s.session_id ≤ os.length := by
      rw [hconv] at htrue
      exact of_decide_eq_true htrue
    have hlt : s.session_id - 1 < os.length := by omega
    refine ⟨os.get ⟨s.session_id - 1, hlt⟩, List.get?_eq_get hlt, ?_⟩
    rw [hrev, if_pos hle, List.get?_eq_get hlt]
    rfl

/-- Witness for the amended C6 at the concrete session fixture. -/
theorem claim_C6_witness :
    ∃ ss r₂,
      generate_web_analytics csF osWF rS = some (ss, r₂) ∧
      ∀ s ∈ ss,
        s.converted = decide (s.session_id ≤ osWF.length) ∧
        (s.converted = false → s.revenue = 0) ∧
        (s.converted = true →
          ∃ o, osWF.get? (s.session_id - 1) = some o ∧
            s.revenue = o.total_amount) := by
  have hS : (generate_web_analytics csF osWF rS).isSome = true := by decide!
  obtain ⟨⟨ss, r₂⟩, hE⟩ := Option.isSome_iff_exists.mp hS
  exact ⟨ss, r₂, hE, claim_C6_amended_conversion csF osWF rS ss r₂ hE⟩

/-- C7: the number of generated web-session records is exactly five times
the number of actually emitted orders. -/
theorem claim_C7_session_count :
    ∀ (cs : List Customer) (os : List Order) (r : Rand) (ss : List Session)
      (r₂ : Rand),
    generate_web_analytics cs os r = some (ss, r₂) →
    ss.length = 5 * os.length := by
  intro cs os r ss r₂ h
  obtain ⟨hloop, -⟩ := generate_web_analytics_run cs os r ss r₂ h
  have := genFor_length (genSession cs os) (os.length * 5) 1 r ss r₂ hloop
  omega

/-- Witness for C7 at the concrete session fixture. -/
theorem claim_C7_witness :
    ∃ ss r₂,
      generate_web_analytics csF osWF rS = some (ss, r₂) ∧
      ss.length = 5 * osWF.length := by
  have hS : (generate_web_analytics csF osWF rS).isSome = true := by decide!
  obtain ⟨⟨ss, r₂⟩, hE⟩ := Option.isSome_iff_exists.mp hS
  exact ⟨ss, r₂, hE, claim_C7_session_count csF osWF rS ss r₂ hE⟩

/-- C8: the pipeline is a deterministic function of the random source and
the configuration: a successful run is reproduced verbatim — all five
tables equal — by any oracle agreeing on the consumed stream prefix, and
`generate_all_data` is definitionally the sequential composition
customers → products → orders/items → sessions on a single source. -/
theorem claim_C8_determinism :
    (∀ (cfg : EcommerceDataGenerator) (r r' : Rand) (t : AllData) (r₂ : Rand),
      r.pos = r'.pos →
      generate_all_data cfg r = some (t, r₂) →
      (∀ k, r.pos ≤ k → k < r₂.pos → r.stream k = r'.stream k) →
      generate_all_data cfg r' = some (t, ⟨r'.stream, r₂.pos⟩)) ∧
    (∀ cfg : EcommerceDataGenerator,
      generate_all_data cfg
        = (generate_customers cfg >>= fun cs =>
           generate_products cfg >>= fun ps =>
           generate_orders cfg cs ps >>= fun x =>
           generate_web_analytics cs x.1 >>= fun ws =>
           Pure.pure ⟨cs, ps, x.1, x.2, ws⟩)) := by
  constructor
  · intro cfg r r' t r₂ hpos h hag
    exact (wf_generate_all_data cfg).2 r r' t r₂ hpos h hag
  · intro cfg
    rfl

/-- Witness for C8: the concrete pipeline run is reproduced by an oracle
with the same consumed prefix. -/
theorem claim_C8_witness :
    ∃ t r₂,
      generate_all_data cfgF6 rF6 = some (t, r₂) ∧
      generate_all_data cfgF6 rF6 = some (t, ⟨rF6.stream, r₂.pos⟩) := by
  have hS : (generate_all_data cfgF6 rF6).isSome = true := by decide!
  obtain ⟨⟨t, r₂⟩, hE⟩ := Option.isSome_iff_exists.mp hS
  exact ⟨t, r₂, hE,
    claim_C8_determinism.1 cfgF6 rF6 rF6 t r₂ rfl hE (fun k _ _ => rfl)⟩

/-- C9 counterexample: order generation with an empty product catalog does
not raise — the concrete run emits one order and zero order items. -/
theorem claim_C9_counterexample :
    ∃ os its r₂,
      generate_orders cfgF9 csF [] rF9 = some ((os, its), r₂) ∧
      os.length = 1 ∧ its = [] := by
  have hS : (generate_orders cfgF9 csF [] rF9).isSome = true := by decide!
  obtain ⟨⟨⟨os, its⟩, r₂⟩, hE⟩ := Option.isSome_iff_exists.mp hS
  have hproj : (generate_orders cfgF9 csF [] rF9).map
      (fun x => (x.1.1.length, x.1.2.length)) = some (1, 0) := by decide!
  rw [hE] at hproj
  simp only [Option.map_some', Option.some.injEq, Prod.mk.injEq] at hproj
  exact ⟨os, its, r₂, hE, hproj.1, List.length_eq_zero.mp hproj.2⟩

/-- C9 amended: the constructor performs no validation.  `generate_orders`
itself does not raise on an empty catalog: whenever it returns, every
emitted order has zero item rows (orders without items) and at least one
order was emitted.  Only the full pipeline aborts on `num_products = 0`,
because `generate_products` raises (its summary print indexes an empty
frame) before order generation runs. -/
theorem claim_C9_amended_no_abort :
    (∀ (cfg : EcommerceDataGenerator) (cs : List Customer) (r : Rand)
        (os : List Order) (its : List OrderItem) (r₂ : Rand),
      generate_orders cfg cs [] r = some ((os, its), r₂) →
      os ≠ [] ∧ its = []) ∧
    (∀ (cfg : EcommerceDataGenerator) (r : Rand),
      cfg.num_products = 0 → generate_all_data cfg r = none) := by
  constructor
  · intro cfg cs r os its r₂ h
    obtain ⟨-, -, -, -, hosne⟩ := generate_orders_run cfg cs [] r os its r₂ h
    refine ⟨hosne, ?_⟩
    obtain ⟨-, -, -, -, -, hpmem, -⟩ := generate_orders_spec cfg cs [] r os its r₂ h
    cases hits : its with
    | nil => rfl
    | cons it rest =>
      obtain ⟨p, hp, -⟩ := hpmem it (by rw [hits]; exact List.mem_cons_self _ _)
      cases hp
  · intro cfg r hzero
    unfold generate_all_data
    rw [run_bind]
    cases hc : generate_customers cfg r with
    | none => rfl
    | some p =>
      obtain ⟨cs, r₁⟩ := p
      have hp : generate_products cfg r₁ = none := by
        unfold generate_products
        rw [hzero]
        rfl
      simp only [Option.some_bind]
      rw [run_bind, hp]
      rfl

/-- Witness for the amended C9 at the empty-catalog fixture. -/
theorem claim_C9_witness :
    (∃ os its r₂,
      generate_orders cfgF9 csF [] rF9 = some ((os, its), r₂) ∧
      os ≠ [] ∧ its = []) ∧
    generate_all_data cfgF9 rF9 = none := by
  constructor
  · have hS : (generate_orders cfgF9 csF [] rF9).isSome = true := by decide!
    obtain ⟨⟨⟨os, its⟩, r₂⟩, hE⟩ := Option.isSome_iff_exists.mp hS
    exact ⟨os, its, r₂, hE,
      claim_C9_amended_no_abort.1 cfgF9 csF rF9 os its r₂ hE⟩
  · exact claim_C9_amended_no_abort.2 cfgF9 rF9 rfl

end DataGen
